import Mathlib

/-!
Verification development for the InjectKit dependency-injection container.

The embedding models the two core components of the repository:

* `InjectKitRegistry` (src/registry.ts): the build-time graph validator
  (`verifyRegistrations`, `verifyNoCircularDependencies`) and `build()`.
* `InjectKitContainer` (container.ts): the runtime resolver
  (`get`, `getScopedInstance`, `createInstance`, `createScopedContainer`,
  `override`).

Modelling choices, each matching the TypeScript source:

* Identifiers (class objects used as map keys) are `Nat`; the special
  `Container` identifier is the reserved value `ContainerId = 0`.
  An identifier's `.name` is rendered as the identifier itself, so error
  payloads carry lists of identifiers instead of joined strings.
* JavaScript `Map` objects are association lists (`lookupA`/`setA`):
  `set` replaces the binding in place or appends a new one, preserving
  insertion order, exactly like a JS `Map`.
* Runtime values (`Value`) model JS values with reference identity:
  `vobj tag` is an object allocated with a fresh tag, `vnode n` is a
  reference to the scope node `n` (a container object).  `truthy` is JS
  truthiness; an absent value (`undefined`) is `Option.none`.
* A container/scope node is represented by its chain of node ids from
  itself up to the root (the materialised `parent` pointer chain);
  `createScopedContainer` conses a fresh node id.  Node-local instance
  caches live in the shared state `St`, keyed by node id, because in the
  source every node's cache is reachable from any alias of that node.
  The registration map is a single shared field of `St` because all
  scopes share the one `Map` by reference (and `override` mutates it).
* Factories are an inductive `FactorySpec` covering the factory shapes
  the source and its tests use: a factory returning a fixed
  (module-level) value, the `build()` self-registration factory
  `(container) => container`, and a factory allocating a fresh object.
* Object contents (constructor arguments, array/map collection entries)
  are not tracked: an object is its identity tag.  Dependency and
  collection resolution is still performed via `get`, so all cache and
  allocation side effects are modelled.
* The unbounded recursions of the source (`get`/`createInstance` and
  `checkCircularDependencies`) take a fuel parameter; `none` means the
  recursion exceeded every finite depth bound (in JS: unbounded
  recursion / stack exhaustion), never a result of the program.
* `St.constructions` is a ghost counter incremented exactly when
  `createInstance` runs a creation strategy; it makes "reconstructs" /
  "does not reconstruct" claims observable and is never read by the
  embedded code.
-/

namespace InjectKit

/-- JS runtime values with reference identity for objects. -/
inductive Value : Type where
  | vnull : Value
  | vbool : Bool → Value
  | vnum : Int → Value
  | vstr : String → Value
  /-- an object allocated with a fresh identity tag -/
  | vobj : Nat → Value
  /-- a reference to the scope node (container object) with this id -/
  | vnode : Nat → Value
  deriving DecidableEq, Repr

/-- JS truthiness of a value. -/
def truthy : Value → Bool
  | .vnull => false
  | .vbool b => b
  | .vnum n => n != 0
  | .vstr s => s != ""
  | .vobj _ => true
  | .vnode _ => true

/-- JS falsiness of an optional value: `undefined` (absent) and falsy
values are both rejected by `if (x)` checks in the source. -/
def falsyOpt : Option Value → Bool
  | none => true
  | some v => !truthy v

/-- The three lifetimes of interfaces.ts (`Lifetime`). -/
inductive Lifetime : Type where
  | singleton | transient | scoped
  deriving DecidableEq, Repr

/-- The factory shapes used by the source and its tests:
a factory returning a fixed value, the `build()` self-registration
factory `(container) => container`, and `() => new X()`. -/
inductive FactorySpec : Type where
  | const : Value → FactorySpec
  | selfContainer : FactorySpec
  | fresh : FactorySpec
  deriving DecidableEq, Repr

/-- The `Registration<T>` record of internal.ts.  `ctor` records whether
the `constructor` field is set (class objects are always truthy);
`instVal` is the `instance` field. -/
structure Reg : Type where
  ctor : Bool
  factory : Option FactorySpec
  instVal : Option Value
  lifetime : Lifetime
  dependencies : List Nat
  ctorDependencies : List Nat
  collectionDependencies : Option (List Nat)
  deriving DecidableEq, Repr

/-- The error surface of the core (messages carry identifiers). -/
inductive Err : Type where
  | registrationNotFound : Nat → Err
  | missingDependencies : Nat → List Nat → Err
  | circularDependency : List Nat → Err
  | invalidRegistration : Nat → Err
  deriving DecidableEq, Repr

/-- Association-list lookup, the model of JS `Map.get`. -/
def lookupA {α : Type} : List (Nat × α) → Nat → Option α
  | [], _ => none
  | (k, v) :: rest, k' => if k = k' then some v else lookupA rest k'

/-- Association-list update, the model of JS `Map.set`: replace the
binding in place or append a new one. -/
def setA {α : Type} : List (Nat × α) → Nat → α → List (Nat × α)
  | [], k, v => [(k, v)]
  | (k', v') :: rest, k, v =>
    if k' = k then (k, v) :: rest else (k', v') :: setA rest k v

/-- The model of JS `Map.has`. -/
def hasKeyA {α : Type} (l : List (Nat × α)) (k : Nat) : Bool :=
  (lookupA l k).isSome

/-- The global state: the shared registration map (one `Map` shared by
reference between all scopes), the per-node instance caches, the next
fresh node id, the next fresh object tag, and the ghost construction
counter. -/
structure St : Type where
  registrations : List (Nat × Reg)
  caches : List (Nat × List (Nat × Value))
  nextNode : Nat
  counter : Nat
  constructions : Nat
  deriving DecidableEq, Repr

/-- `this.instances.get(id)` on node `n`. -/
def cacheLookup (st : St) (n : Nat) (id : Nat) : Option Value :=
  lookupA ((lookupA st.caches n).getD []) id

/-- `instances.set(id, v)` on node `n`. -/
def cacheSet (st : St) (n : Nat) (id : Nat) (v : Value) : St :=
  { st with caches := setA st.caches n (setA ((lookupA st.caches n).getD []) id v) }

/-- The head of a scope chain: the node itself (`this`). -/
def headOf : List Nat → Nat
  | [] => 0
  | n :: _ => n

/-- The root of a scope chain: `while (container.parent) container =
container.parent` in `createInstance`. -/
def rootOf : List Nat → Nat
  | [] => 0
  | [n] => n
  | _ :: rest => rootOf rest

/-! ## The registry validator (src/registry.ts) -/

/-- The identifier of the abstract `Container` class. -/
def ContainerId : Nat := 0

/-- The self-registration `build()` inserts for `Container`:
`lifetime: 'singleton'`, `factory: (container) => container`, no
dependencies. -/
def containerSelfReg : Reg :=
  { ctor := false, factory := some .selfContainer, instVal := none,
    lifetime := .singleton, dependencies := [], ctorDependencies := [],
    collectionDependencies := none }

/-- The map `build()` validates: the caller's registrations, with the
`Container` self-registration appended unless the caller registered that
identifier.  (In the source this insertion happens before
`verifyRegistrations` / `verifyNoCircularDependencies` run.) -/
def buildRegistrations (m : List (Nat × Reg)) : List (Nat × Reg) :=
  if hasKeyA m ContainerId then m else m ++ [(ContainerId, containerSelfReg)]

/-- The loop of `InjectKitRegistry.verifyRegistrations`: `acc` is the
`missingDependencies` array, which the source declares outside the loop
over entries; after extending it with the current entry's unregistered
dependencies the source throws as soon as it is non-empty, naming the
current entry. -/
def verifyRegistrationsGo (regs : List (Nat × Reg)) :
    List (Nat × Reg) → List Nat → Except Err Unit
  | [], _ => .ok ()
  | (id, r) :: rest, acc =>
    let acc' := acc ++ r.dependencies.filter (fun d => !(hasKeyA regs d))
    if acc' = [] then verifyRegistrationsGo regs rest acc'
    else .error (.missingDependencies id acc')

/-- `InjectKitRegistry.verifyRegistrations`. -/
def verifyRegistrations (regs : List (Nat × Reg)) : Except Err Unit :=
  verifyRegistrationsGo regs regs []

/-- The `for` loop of the inner `checkCircularDependencies` closure:
iterate the current dependency list, throwing when the start identifier
recurs, descending (via `deeper`, the depth-bounded recursive call) into
a found registration with a non-empty dependency list, and skipping
missing or leaf registrations.  `path` is the `dependencies` path
accumulator used for error reporting. -/
def chkLoop (regs : List (Nat × Reg))
    (deeper : List Nat → List Nat → Option (Except Err Unit)) (id : Nat) :
    List Nat → List Nat → Option (Except Err Unit)
  | [], _ => some (.ok ())
  | d :: rest, path =>
    if id = d then
      some (.error (.circularDependency (id :: (path ++ [id]))))
    else
      match lookupA regs d with
      | some dr =>
        if dr.dependencies.isEmpty then chkLoop regs deeper id rest path
        else
          match deeper dr.dependencies (path ++ [d]) with
          | none => none
          | some (.error e) => some (.error e)
          | some (.ok ()) => chkLoop regs deeper id rest path
      | none => chkLoop regs deeper id rest path

/-- The inner `checkCircularDependencies` closure of
`verifyNoCircularDependencies`, with fuel bounding the recursion depth
(the source recursion is unbounded; `none` = the recursion exceeds every
finite depth bound).  `id` is the fixed starting identifier. -/
def checkCircularDependencies (regs : List (Nat × Reg)) :
    Nat → Nat → List Nat → List Nat → Option (Except Err Unit)
  | fuel, id, deps, path =>
    chkLoop regs
      (fun deps' path' =>
        match fuel with
        | 0 => none
        | fuel' + 1 => checkCircularDependencies regs fuel' id deps' path')
      id deps path

/-- The loop of `verifyNoCircularDependencies` over all entries; a
thrown error aborts the loop. -/
def verifyNoCircularGo (regs : List (Nat × Reg)) (fuel : Nat) :
    List (Nat × Reg) → Option (Except Err Unit)
  | [] => some (.ok ())
  | (id, r) :: rest =>
    match checkCircularDependencies regs fuel id r.dependencies [] with
    | none => none
    | some (.error e) => some (.error e)
    | some (.ok ()) => verifyNoCircularGo regs fuel rest

/-- `InjectKitRegistry.verifyNoCircularDependencies`, fuelled. -/
def verifyNoCircularDependenciesF (regs : List (Nat × Reg)) (fuel : Nat) :
    Option (Except Err Unit) :=
  verifyNoCircularGo regs fuel regs

/-- The state of the freshly built root container: the validated map,
empty caches, root node id `0`. -/
def initSt (regs : List (Nat × Reg)) : St :=
  { registrations := regs, caches := [], nextNode := 1, counter := 0,
    constructions := 0 }

/-- The scope chain of the root container returned by `build()`. -/
def rootChain : List Nat := [0]

/-- `InjectKitRegistry.build`: insert the `Container` self-registration
unless present, run the two validators in order, and construct the root
container over the map. -/
def buildF (fuel : Nat) (m : List (Nat × Reg)) : Option (Except Err St) :=
  match verifyRegistrations (buildRegistrations m) with
  | .error e => some (.error e)
  | .ok () =>
    match verifyNoCircularDependenciesF (buildRegistrations m) fuel with
    | none => none
    | some (.error e) => some (.error e)
    | some (.ok ()) => some (.ok (initSt (buildRegistrations m)))

/-! ## The container runtime (container.ts) -/

/-- `InjectKitContainer.getScopedInstance`, walking the scope chain:
`const instance = this.instances.get(id); if (!instance && this.parent)
return this.parent.getScopedInstance(id); else return instance;`.
Note the truthiness check: a cached falsy value is skipped like an
absent one. -/
def getScopedInstance (st : St) : List Nat → Nat → Option Value
  | [], _ => none
  | n :: rest, id =>
    let inst := cacheLookup st n id
    if falsyOpt inst && !rest.isEmpty then getScopedInstance st rest id
    else inst

/-- Resolve a list of identifiers in order through `step` (a `get` on
the current node), threading state and aborting on the first error.
Used for `ctorDependencies` and for `collectionDependencies`. -/
def resolveSeq (step : St → Nat → Option (St × Except Err Value)) :
    St → List Nat → Option (St × Except Err Unit)
  | st, [] => some (st, .ok ())
  | st, d :: rest =>
    match step st d with
    | none => none
    | some (st', .error e) => some (st', .error e)
    | some (st', .ok _) => resolveSeq step st' rest

/-- The creation-strategy selection of `createInstance`: the
`if (registration.constructor) ... else if (registration.factory) ...
else if (registration.instance) ... else throw` chain.  All branches
test JS truthiness; in particular a registration whose `instance` field
holds a falsy value falls through to `InvalidRegistration`.
Constructor-based creation resolves `ctorDependencies` in order via
`step` and then allocates a fresh object. -/
def runStrategy (step : St → Nat → Option (St × Except Err Value))
    (st : St) (c : List Nat) (id : Nat) (r : Reg) :
    Option (St × Except Err Value) :=
  if r.ctor then
    match resolveSeq step st r.ctorDependencies with
    | none => none
    | some (st', .error e) => some (st', .error e)
    | some (st', .ok ()) =>
      some ({ st' with counter := st'.counter + 1 }, .ok (.vobj st'.counter))
  else
    match r.factory with
    | some (.const v) => some (st, .ok v)
    | some .selfContainer => some (st, .ok (.vnode (headOf c)))
    | some .fresh =>
      some ({ st with counter := st.counter + 1 }, .ok (.vobj st.counter))
    | none =>
      match r.instVal with
      | some v =>
        if truthy v then some (st, .ok v)
        else some (st, .error (.invalidRegistration id))
      | none => some (st, .error (.invalidRegistration id))

/-- The collection-population loop of `createInstance`: each referenced
identifier is resolved via `get` on this node and pushed/inserted into
the instance (object contents are not tracked, only the resolution side
effects). -/
def applyCollection (step : St → Nat → Option (St × Except Err Value))
    (st : St) (r : Reg) : Option (St × Except Err Unit) :=
  match r.collectionDependencies with
  | some l => resolveSeq step st l
  | none => some (st, .ok ())

/-- The lifetime-caching step of `createInstance`: singletons are stored
in the root node's cache (the `while (container.parent)` walk), scoped
instances in this node's cache, transients nowhere. -/
def applyCaching (st : St) (c : List Nat) (id : Nat) (r : Reg)
    (inst : Value) : St :=
  match r.lifetime with
  | .singleton => cacheSet st (rootOf c) id inst
  | .scoped => cacheSet st (headOf c) id inst
  | .transient => st

/-- `InjectKitContainer.createInstance`: run the creation strategy,
resolve collection dependencies, cache by lifetime, return the
instance.  `St.constructions` is the ghost counter of strategy runs. -/
def createInstance (step : St → Nat → Option (St × Except Err Value))
    (st : St) (c : List Nat) (id : Nat) (r : Reg) :
    Option (St × Except Err Value) :=
  match runStrategy step st c id r with
  | none => none
  | some (st1, .error e) => some (st1, .error e)
  | some (st1, .ok inst) =>
    let st1' := { st1 with constructions := st1.constructions + 1 }
    match applyCollection step st1' r with
    | none => none
    | some (st2, .error e) => some (st2, .error e)
    | some (st2, .ok ()) => some (applyCaching st2 c id r inst, .ok inst)

/-- `InjectKitContainer.get`, fuelled by recursion depth: look up the
registration (`RegistrationNotFound` if absent), consult the scoped
cache chain for non-transient lifetimes (truthiness check!), otherwise
construct. -/
def getF : Nat → St → List Nat → Nat → Option (St × Except Err Value)
  | 0, _, _, _ => none
  | fuel + 1, st, c, id =>
    match lookupA st.registrations id with
    | none => some (st, .error (.registrationNotFound id))
    | some r =>
      match (if r.lifetime = .transient then none else getScopedInstance st c id) with
      | some v =>
        if truthy v then some (st, .ok v)
        else createInstance (fun st' d => getF fuel st' c d) st c id r
      | none => createInstance (fun st' d => getF fuel st' c d) st c id r

/-- `n` successive `get(id)` calls on the same node, collecting the
returned instances. -/
def getNF (fuel : Nat) (st : St) (c : List Nat) (id : Nat) :
    Nat → Option (St × Except Err (List Value))
  | 0 => some (st, .ok [])
  | n + 1 =>
    match getF fuel st c id with
    | none => none
    | some (st', .error e) => some (st', .error e)
    | some (st', .ok v) =>
      match getNF fuel st' c id n with
      | none => none
      | some (st'', .error e) => some (st'', .error e)
      | some (st'', .ok vs) => some (st'', .ok (v :: vs))

/-- `InjectKitContainer.createScopedContainer`: a fresh node sharing the
registration map, with this node as parent; its local cache starts
empty. -/
def createScopedContainer (st : St) (c : List Nat) : List Nat × St :=
  (st.nextNode :: c, { st with nextNode := st.nextNode + 1 })

/-- The registration `override` stores: `scoped` lifetime, instance
strategy, no dependencies. -/
def mkOverrideReg (v : Value) : Reg :=
  { ctor := false, factory := none, instVal := some v,
    lifetime := .scoped, dependencies := [], ctorDependencies := [],
    collectionDependencies := none }

/-- `InjectKitContainer.override`: replace the entry in the shared
registration map (visible to every scope holding the map) and seed this
node's local cache. -/
def overrideOp (st : St) (c : List Nat) (id : Nat) (v : Value) : St :=
  let st1 := { st with registrations := setA st.registrations id (mkOverrideReg v) }
  cacheSet st1 (headOf c) id v

/-! ## Specification-side notions used by the theorems -/

/-- The frame invariant of a resolution on the scope chain `c`: the
registration map and the scope arena are untouched, the allocation and
construction counters only grow, and a cache binding for key `k` can
change only at the chain's root (if `k` is registered `singleton`) or at
the chain's head (if `k` is registered `scoped`). -/
structure GetInv (c : List Nat) (st st' : St) : Prop where
  regs : st'.registrations = st.registrations
  nodes : st'.nextNode = st.nextNode
  counterLe : st.counter ≤ st'.counter
  constrLe : st.constructions ≤ st'.constructions
  cache : ∀ n k, cacheLookup st' n k = cacheLookup st n k ∨
    ∃ rk, lookupA st.registrations k = some rk ∧
      ((rk.lifetime = .singleton ∧ n = rootOf c) ∨
       (rk.lifetime = .scoped ∧ n = headOf c))

/-- A resolution step (one `get` on the chain `c`) preserves the frame
invariant. -/
def StepInv (c : List Nat)
    (step : St → Nat → Option (St × Except Err Value)) : Prop :=
  ∀ st d res, step st d = some res → GetInv c st res.1

/-- Whether a registration's creation strategy can only produce truthy
values: class construction and object allocation always can; a
fixed-value factory produces a truthy value iff that value is truthy. -/
def strategyTruthy (r : Reg) : Bool :=
  if r.ctor then true
  else
    match r.factory with
    | some (.const v) => truthy v
    | some .selfContainer => true
    | some .fresh => true
    | none =>
      match r.instVal with
      | some v => truthy v
      | none => false

/-- A class-based registration with the given constructor dependencies
(`useClass` + reflection metadata), singleton lifetime. -/
def classReg (deps : List Nat) : Reg :=
  { ctor := true, factory := none, instVal := none, lifetime := .singleton,
    dependencies := deps, ctorDependencies := deps,
    collectionDependencies := none }

/-- A class-based registration with the given lifetime and no
dependencies. -/
def classRegL (l : Lifetime) : Reg :=
  { ctor := true, factory := none, instVal := none, lifetime := l,
    dependencies := [], ctorDependencies := [],
    collectionDependencies := none }

/-- A factory registration returning the fixed value `v`
(`useFactory(() => v)`) with the given lifetime. -/
def constFactoryReg (v : Value) (l : Lifetime) : Reg :=
  { ctor := false, factory := some (.const v), instVal := none,
    lifetime := l, dependencies := [], ctorDependencies := [],
    collectionDependencies := none }

/-- An instance-based registration (`useInstance(v)`: singleton). -/
def instanceReg (v : Value) : Reg :=
  { ctor := false, factory := none, instVal := some v,
    lifetime := .singleton, dependencies := [], ctorDependencies := [],
    collectionDependencies := none }

/-- A registration with none of the three creation strategies set. -/
def emptyReg (l : Lifetime) : Reg :=
  { ctor := false, factory := none, instVal := none, lifetime := l,
    dependencies := [], ctorDependencies := [],
    collectionDependencies := none }

/-- The C1 scenario: `A(needs:B)`, `B(needs:C)`, `C(needs:B)` with
`A = 1`, `B = 2`, `C = 3`, registered in that order; the `B,C` cycle is
reachable from `A` but never loops back to `A`. -/
def c1Regs : List (Nat × Reg) :=
  [(1, classReg [2]), (2, classReg [3]), (3, classReg [2])]

/-- The registration map the C1 validator actually runs on. -/
def c1R : List (Nat × Reg) := buildRegistrations c1Regs

/-- The C10 scenario: identifier `1` registered singleton with a factory
returning `null`. -/
def c10Reg : Reg := constFactoryReg .vnull .singleton

/-- The C10 root state after `build()`. -/
def c10St0 : St := initSt (buildRegistrations [(1, c10Reg)])

/-- The C10 state after one `get(1)` on the root. -/
def c10St1 : St :=
  applyCaching { c10St0 with constructions := c10St0.constructions + 1 }
    rootChain 1 c10Reg .vnull

/-- The C10 state after a second `get(1)` on the root. -/
def c10St2 : St :=
  applyCaching { c10St1 with constructions := c10St1.constructions + 1 }
    rootChain 1 c10Reg .vnull

/-- Forget the state of a resolution result, keeping the returned value
or error. -/
def resultOf (x : Option (St × Except Err Value)) : Option (Except Err Value) :=
  x.map Prod.snd

/-- The C2 scenario: identifier `5` registered scoped and class-based;
scope `1` and scope `2` are siblings under the root `0`. -/
def c2St0 : St := initSt (buildRegistrations [(5, classRegL .scoped)])

/-- The C5 counterexample scenario: identifier `2` registered singleton
with a factory returning the falsy number `0`. -/
def c5St0 : St := initSt (buildRegistrations [(2, constFactoryReg (.vnum 0) .singleton)])

/-- The C5 counterexample state after one root `get(2)`. -/
def c5St1 : St :=
  applyCaching { c5St0 with constructions := c5St0.constructions + 1 }
    rootChain 2 (constFactoryReg (.vnum 0) .singleton) (.vnum 0)

/-- The C5 counterexample state after a second root `get(2)`. -/
def c5St2 : St :=
  applyCaching { c5St1 with constructions := c5St1.constructions + 1 }
    rootChain 2 (constFactoryReg (.vnum 0) .singleton) (.vnum 0)

/-- The C5 witness scenario: identifier `4` registered singleton and
class-based, resolved on the scopes `[1, 0]` and `[2, 0]`. -/
def c5WSt0 : St := initSt (buildRegistrations [(4, classRegL .singleton)])

/-- The C5 witness state after the first resolution. -/
def c5WSt1 : St :=
  cacheSet
    { c5WSt0 with
      counter := c5WSt0.counter + 1
      constructions := c5WSt0.constructions + 1 }
    0 4 (.vobj 0)

/-- The C6 counterexample scenario: identifier `7` registered scoped
with a factory returning the shared module-level object `vobj 77`. -/
def c6St0 : St := initSt (buildRegistrations [(7, constFactoryReg (.vobj 77) .scoped)])

/-- The C6 counterexample state after scope `[1, 0]` resolves `7`. -/
def c6St1 : St :=
  applyCaching { c6St0 with constructions := c6St0.constructions + 1 }
    [1, 0] 7 (constFactoryReg (.vobj 77) .scoped) (.vobj 77)

/-- The C6 counterexample state after scope `[2, 0]` also resolves `7`. -/
def c6St2 : St :=
  applyCaching { c6St1 with constructions := c6St1.constructions + 1 }
    [2, 0] 7 (constFactoryReg (.vobj 77) .scoped) (.vobj 77)

/-- The C6 witness scenario: identifier `6` registered scoped and
class-based, with sibling scopes `[1, 0]` and `[2, 0]`. -/
def c6WSt0 : St := initSt (buildRegistrations [(6, classRegL .scoped)])

/-- The C6 witness state after scope `[1, 0]` resolves `6`. -/
def c6WSt1 : St :=
  cacheSet
    { c6WSt0 with
      counter := c6WSt0.counter + 1
      constructions := c6WSt0.constructions + 1 }
    1 6 (.vobj 0)

/-- The C6 witness state after scope `[2, 0]` also resolves `6`. -/
def c6WSt2 : St :=
  cacheSet
    { c6WSt1 with
      counter := c6WSt1.counter + 1
      constructions := c6WSt1.constructions + 1 }
    2 6 (.vobj 1)

/-- The C7 counterexample scenario: identifier `9` registered transient
with a factory returning the shared module-level object `vobj 77`. -/
def c7St0 : St := initSt (buildRegistrations [(9, constFactoryReg (.vobj 77) .transient)])

/-- The C7 witness scenario: identifier `8` registered transient and
class-based. -/
def c7WSt0 : St := initSt (buildRegistrations [(8, classRegL .transient)])

/-- The C7 witness state after three root `get(8)` calls. -/
def c7WStF : St :=
  { c7WSt0 with
    counter := c7WSt0.counter + 3
    constructions := c7WSt0.constructions + 3 }

/-! ## Association-list and cache lemmas -/

theorem lookupA_setA {α : Type} (l : List (Nat × α)) (k : Nat) (v : α)
    (k' : Nat) :
    lookupA (setA l k v) k' = if k = k' then some v else lookupA l k' := by
  induction l with
  | nil => by_cases h : k = k' <;> simp [setA, lookupA, h]
  | cons p rest ih =>
    obtain ⟨k₀, v₀⟩ := p
    by_cases h0 : k₀ = k
    · subst h0
      by_cases h : k₀ = k' <;> simp [setA, lookupA, h]
    · by_cases h : k₀ = k'
      · subst h
        have hkk : ¬ k = k₀ := fun hc => h0 hc.symm
        simp [setA, lookupA, h0, hkk]
      · simp [setA, lookupA, h0, h, ih]

theorem lookupA_mem {α : Type} (l : List (Nat × α)) (k : Nat) (v : α)
    (h : lookupA l k = some v) : (k, v) ∈ l := by
  induction l with
  | nil => simp [lookupA] at h
  | cons p rest ih =>
    obtain ⟨k₀, v₀⟩ := p
    by_cases h0 : k₀ = k
    · subst h0
      simp [lookupA] at h
      simp [h]
    · simp [lookupA, h0] at h
      exact List.mem_cons_of_mem _ (ih h)

theorem lookupA_append_left {α : Type} (l l' : List (Nat × α)) (k : Nat)
    (h : hasKeyA l k = false) : lookupA (l ++ l') k = lookupA l' k := by
  induction l with
  | nil => simp
  | cons p rest ih =>
    obtain ⟨k₀, v₀⟩ := p
    by_cases h0 : k₀ = k
    · subst h0
      simp [hasKeyA, lookupA] at h
    · simp [hasKeyA, lookupA, h0] at h ⊢
      exact ih (by simp [hasKeyA, h])

theorem hasKeyA_append_left {α : Type} (l l' : List (Nat × α)) (k : Nat)
    (h : hasKeyA l k = true) : hasKeyA (l ++ l') k = true := by
  induction l with
  | nil => simp [hasKeyA, lookupA] at h
  | cons p rest ih =>
    obtain ⟨k₀, v₀⟩ := p
    by_cases h0 : k₀ = k
    · simp [hasKeyA, lookupA, h0]
    · simp [hasKeyA, lookupA, h0] at h ⊢
      exact ih h

theorem cacheLookup_cacheSet (st : St) (n id : Nat) (v : Value)
    (n' id' : Nat) :
    cacheLookup (cacheSet st n id v) n' id' =
      if n = n' ∧ id = id' then some v else cacheLookup st n' id' := by
  unfold cacheLookup cacheSet
  simp only [lookupA_setA]
  by_cases hn : n = n'
  · subst hn
    simp only [if_pos rfl, Option.getD_some, lookupA_setA]
    by_cases hid : id = id' <;> simp [lookupA_setA, hid]
  · simp [hn]

theorem cacheLookup_registrations (st : St) (regs : List (Nat × Reg))
    (n id : Nat) : cacheLookup { st with registrations := regs } n id =
      cacheLookup st n id := rfl

/-! ## Walk lemmas for `getScopedInstance` -/

theorem getScopedInstance_cons (st : St) (n : Nat) (rest : List Nat)
    (id : Nat) :
    getScopedInstance st (n :: rest) id =
      if falsyOpt (cacheLookup st n id) && !rest.isEmpty then
        getScopedInstance st rest id
      else cacheLookup st n id := rfl

theorem getScopedInstance_of_none (st : St) (ch : List Nat) (id : Nat)
    (h : ∀ n ∈ ch, cacheLookup st n id = none) :
    getScopedInstance st ch id = none := by
  induction ch with
  | nil => rfl
  | cons n rest ih =>
    have hn : cacheLookup st n id = none := h n (by simp)
    rw [getScopedInstance_cons]
    cases rest with
    | nil => simp [hn]
    | cons m rest' =>
      have hrec := ih (fun n' hn' => h n' (List.mem_cons_of_mem _ hn'))
      simp [hn, falsyOpt, hrec]

theorem getScopedInstance_falsy (st : St) (ch : List Nat) (id : Nat)
    (h : ∀ n ∈ ch, falsyOpt (cacheLookup st n id) = true) :
    falsyOpt (getScopedInstance st ch id) = true := by
  induction ch with
  | nil => rfl
  | cons n rest ih =>
    have hn : falsyOpt (cacheLookup st n id) = true := h n (by simp)
    rw [getScopedInstance_cons]
    cases rest with
    | nil => simpa using hn
    | cons m rest' =>
      have hrec := ih (fun n' hn' => h n' (List.mem_cons_of_mem _ hn'))
      simpa [hn] using hrec

theorem getScopedInstance_finds (st : St) (ch : List Nat) (id rt : Nat)
    (v : Value) (hv : truthy v = true)
    (hroot : cacheLookup st rt id = some v)
    (hothers : ∀ n, n ≠ rt → cacheLookup st n id = none)
    (hne : ch ≠ []) (hlast : rootOf ch = rt) :
    getScopedInstance st ch id = some v := by
  induction ch with
  | nil => exact absurd rfl hne
  | cons n rest ih =>
    rw [getScopedInstance_cons]
    cases rest with
    | nil =>
      have : n = rt := by simpa [rootOf] using hlast
      subst this
      simp [hroot, falsyOpt, hv]
    | cons m rest' =>
      by_cases hn : n = rt
      · subst hn
        simp [hroot, falsyOpt, hv]
      · have hnone := hothers n hn
        have hrec := ih (by simp) (by simpa [rootOf] using hlast)
        simp [hnone, falsyOpt, hrec]

/-! ## Unfolding and invariants for `getF` -/

theorem getF_succ (fuel : Nat) (st : St) (c : List Nat) (id : Nat) :
    getF (fuel + 1) st c id =
      match lookupA st.registrations id with
      | none => some (st, .error (.registrationNotFound id))
      | some r =>
        match (if r.lifetime = .transient then none else getScopedInstance st c id) with
        | some v =>
          if truthy v then some (st, .ok v)
          else createInstance (fun st' d => getF fuel st' c d) st c id r
        | none => createInstance (fun st' d => getF fuel st' c d) st c id r := by
  rfl

theorem GetInv.refl (c : List Nat) (st : St) : GetInv c st st :=
  ⟨rfl, rfl, Nat.le_refl _, Nat.le_refl _, fun _ _ => Or.inl rfl⟩

theorem GetInv.trans {c : List Nat} {st st' st'' : St}
    (h1 : GetInv c st st') (h2 : GetInv c st' st'') : GetInv c st st'' := by
  refine ⟨h2.regs.trans h1.regs, h2.nodes.trans h1.nodes,
    Nat.le_trans h1.counterLe h2.counterLe,
    Nat.le_trans h1.constrLe h2.constrLe, ?_⟩
  intro n k
  rcases h2.cache n k with h | ⟨rk, hrk, hd⟩
  · rcases h1.cache n k with h' | hx
    · exact Or.inl (h.trans h')
    · exact Or.inr hx
  · rw [h1.regs] at hrk
    exact Or.inr ⟨rk, hrk, hd⟩

theorem GetInv.bumpCounter {c : List Nat} {st st' : St}
    (h : GetInv c st st') :
    GetInv c st { st' with counter := st'.counter + 1 } :=
  ⟨h.regs, h.nodes, Nat.le_succ_of_le h.counterLe, h.constrLe, h.cache⟩

theorem GetInv.bumpConstr {c : List Nat} {st st' : St}
    (h : GetInv c st st') :
    GetInv c st { st' with constructions := st'.constructions + 1 } :=
  ⟨h.regs, h.nodes, h.counterLe, Nat.le_succ_of_le h.constrLe, h.cache⟩

theorem GetInv.write {c : List Nat} {st st' : St} {k n : Nat} {rk : Reg}
    {v : Value} (h : GetInv c st st')
    (hrk : lookupA st.registrations k = some rk)
    (hd : (rk.lifetime = .singleton ∧ n = rootOf c) ∨
          (rk.lifetime = .scoped ∧ n = headOf c)) :
    GetInv c st (cacheSet st' n k v) := by
  refine ⟨h.regs, h.nodes, h.counterLe, h.constrLe, ?_⟩
  intro n' k'
  rw [cacheLookup_cacheSet]
  by_cases hit : n = n' ∧ k = k'
  · obtain ⟨hn, hk⟩ := hit
    subst hn; subst hk
    exact Or.inr ⟨rk, hrk, hd⟩
  · rw [if_neg hit]
    exact h.cache n' k'

theorem resolveSeq_inv {c : List Nat}
    {step : St → Nat → Option (St × Except Err Value)}
    (hstep : StepInv c step) :
    ∀ (l : List Nat) (st : St) (res : St × Except Err Unit),
      resolveSeq step st l = some res → GetInv c st res.1 := by
  intro l
  induction l with
  | nil =>
    intro st res h
    simp only [resolveSeq] at h
    cases h
    exact GetInv.refl c st
  | cons d rest ih =>
    intro st res h
    simp only [resolveSeq] at h
    cases hs : step st d with
    | none => rw [hs] at h; cases h
    | some p =>
      obtain ⟨st', e⟩ := p
      rw [hs] at h
      cases e with
      | error e0 =>
        simp at h
        cases h
        exact hstep st d _ hs
      | ok v =>
        simp at h
        exact (hstep st d _ hs).trans (ih st' res h)

theorem runStrategy_inv {c : List Nat}
    {step : St → Nat → Option (St × Except Err Value)}
    (hstep : StepInv c step) (st : St) (id : Nat) (r : Reg)
    (res : St × Except Err Value)
    (h : runStrategy step st c id r = some res) : GetInv c st res.1 := by
  unfold runStrategy at h
  by_cases hc : r.ctor
  · rw [if_pos hc] at h
    cases hs : resolveSeq step st r.ctorDependencies with
    | none => rw [hs] at h; cases h
    | some p =>
      obtain ⟨st', e⟩ := p
      rw [hs] at h
      cases e with
      | error e0 =>
        simp at h
        cases h
        exact resolveSeq_inv hstep _ _ _ hs
      | ok u =>
        cases u
        simp at h
        cases h
        exact (resolveSeq_inv hstep _ _ _ hs).bumpCounter
  · rw [if_neg hc] at h
    cases hf : r.factory with
    | some f =>
      rw [hf] at h
      cases f with
      | const v => simp at h; cases h; exact GetInv.refl c st
      | selfContainer => simp at h; cases h; exact GetInv.refl c st
      | fresh => simp at h; cases h; exact (GetInv.refl c st).bumpCounter
    | none =>
      rw [hf] at h
      cases hi : r.instVal with
      | some v =>
        rw [hi] at h
        by_cases ht : truthy v <;> simp [ht] at h <;> cases h <;>
          exact GetInv.refl c st
      | none => rw [hi] at h; simp at h; cases h; exact GetInv.refl c st

theorem applyCollection_inv {c : List Nat}
    {step : St → Nat → Option (St × Except Err Value)}
    (hstep : StepInv c step) (st : St) (r : Reg)
    (res : St × Except Err Unit)
    (h : applyCollection step st r = some res) : GetInv c st res.1 := by
  unfold applyCollection at h
  cases hcd : r.collectionDependencies with
  | some l =>
    rw [hcd] at h
    exact resolveSeq_inv hstep _ _ _ h
  | none =>
    rw [hcd] at h
    cases h
    exact GetInv.refl c st

theorem createInstance_inv {c : List Nat}
    {step : St → Nat → Option (St × Except Err Value)}
    (hstep : StepInv c step) (st : St) (id : Nat) (r : Reg)
    (res : St × Except Err Value)
    (hr : lookupA st.registrations id = some r)
    (h : createInstance step st c id r = some res) : GetInv c st res.1 := by
  unfold createInstance at h
  cases hs : runStrategy step st c id r with
  | none => rw [hs] at h; cases h
  | some p =>
    obtain ⟨st1, e⟩ := p
    rw [hs] at h
    cases e with
    | error e0 =>
      simp at h
      cases h
      exact runStrategy_inv hstep st id r _ hs
    | ok inst =>
      simp only at h
      have hinv1 : GetInv c st { st1 with constructions := st1.constructions + 1 } :=
        (runStrategy_inv hstep st id r _ hs).bumpConstr
      cases hcoll : applyCollection step { st1 with constructions := st1.constructions + 1 } r with
      | none => rw [hcoll] at h; cases h
      | some q =>
        obtain ⟨st2, e2⟩ := q
        rw [hcoll] at h
        cases e2 with
        | error e0 =>
          simp at h
          cases h
          exact hinv1.trans (applyCollection_inv hstep _ _ _ hcoll)
        | ok u =>
          cases u
          simp at h
          cases h
          have hinv2 : GetInv c st st2 :=
            hinv1.trans (applyCollection_inv hstep _ _ _ hcoll)
          unfold applyCaching
          cases hl : r.lifetime
          · exact hinv2.write hr (Or.inl ⟨hl, rfl⟩)
          · exact hinv2
          · exact hinv2.write hr (Or.inr ⟨hl, rfl⟩)

theorem getF_inv :
    ∀ (fuel : Nat) (st : St) (c : List Nat) (id : Nat)
      (res : St × Except Err Value),
      getF fuel st c id = some res → GetInv c st res.1 := by
  intro fuel
  induction fuel with
  | zero => intro st c id res h; simp [getF] at h
  | succ fuel ih =>
    intro st c id res h
    rw [getF_succ] at h
    have hstep : StepInv c (fun st' d => getF fuel st' c d) :=
      fun st' d res' h' => ih st' c d res' h'
    split at h
    · cases h
      exact GetInv.refl c st
    · rename_i r hl
      split at h
      · rename_i v hw
        split at h
        · cases h
          exact GetInv.refl c st
        · exact createInstance_inv hstep st id r res hl h
      · exact createInstance_inv hstep st id r res hl h

/-! ## Success-path lemmas -/

theorem applyCaching_registrations (st : St) (c : List Nat) (id : Nat)
    (r : Reg) (v : Value) :
    (applyCaching st c id r v).registrations = st.registrations := by
  unfold applyCaching
  cases r.lifetime <;> rfl

theorem applyCaching_counter (st : St) (c : List Nat) (id : Nat)
    (r : Reg) (v : Value) :
    (applyCaching st c id r v).counter = st.counter := by
  unfold applyCaching
  cases r.lifetime <;> rfl

theorem applyCaching_constructions (st : St) (c : List Nat) (id : Nat)
    (r : Reg) (v : Value) :
    (applyCaching st c id r v).constructions = st.constructions := by
  unfold applyCaching
  cases r.lifetime <;> rfl

/-- Inversion of a successful `runStrategy`: exactly one of the four
creation paths ran. -/
theorem runStrategy_ok_cases
    {step : St → Nat → Option (St × Except Err Value)} {st st' : St}
    {c : List Nat} {id : Nat} {r : Reg} {v : Value}
    (h : runStrategy step st c id r = some (st', .ok v)) :
    (r.ctor = true ∧ ∃ stA, resolveSeq step st r.ctorDependencies = some (stA, .ok ()) ∧
      st' = { stA with counter := stA.counter + 1 } ∧ v = .vobj stA.counter) ∨
    (r.ctor = false ∧
      ((∃ w, r.factory = some (.const w) ∧ st' = st ∧ v = w) ∨
       (r.factory = some .selfContainer ∧ st' = st ∧ v = .vnode (headOf c)) ∨
       (r.factory = some .fresh ∧ st' = { st with counter := st.counter + 1 } ∧
         v = .vobj st.counter) ∨
       (r.factory = none ∧ ∃ w, r.instVal = some w ∧ truthy w = true ∧
         st' = st ∧ v = w))) := by
  unfold runStrategy at h
  by_cases hc : r.ctor
  · rw [if_pos hc] at h
    refine Or.inl ⟨hc, ?_⟩
    cases hs : resolveSeq step st r.ctorDependencies with
    | none => rw [hs] at h; cases h
    | some p =>
      obtain ⟨stA, e⟩ := p
      rw [hs] at h
      cases e with
      | error e0 => simp at h
      | ok u =>
        cases u
        simp at h
        exact ⟨stA, rfl, h.1.symm, h.2.symm⟩
  · rw [if_neg hc] at h
    refine Or.inr ⟨by simpa using hc, ?_⟩
    cases hf : r.factory with
    | some f =>
      rw [hf] at h
      cases f with
      | const w =>
        simp at h
        exact Or.inl ⟨w, rfl, h.1.symm, h.2.symm⟩
      | selfContainer =>
        simp at h
        exact Or.inr (Or.inl ⟨rfl, h.1.symm, h.2.symm⟩)
      | fresh =>
        simp at h
        exact Or.inr (Or.inr (Or.inl ⟨rfl, h.1.symm, h.2.symm⟩))
    | none =>
      rw [hf] at h
      cases hi : r.instVal with
      | some w =>
        rw [hi] at h
        by_cases ht : truthy w
        · simp [ht] at h
          exact Or.inr (Or.inr (Or.inr ⟨rfl, w, rfl, ht, h.1.symm, h.2.symm⟩))
        · simp [ht] at h
      | none => rw [hi] at h; simp at h

/-- Inversion of a successful `createInstance`: the strategy ran, the
ghost counter was bumped, the collection loop succeeded, and the
lifetime-caching step produced the final state. -/
theorem createInstance_ok_cases
    {step : St → Nat → Option (St × Except Err Value)} {st st' : St}
    {c : List Nat} {id : Nat} {r : Reg} {v : Value}
    (h : createInstance step st c id r = some (st', .ok v)) :
    ∃ st1 st2, runStrategy step st c id r = some (st1, .ok v) ∧
      applyCollection step { st1 with constructions := st1.constructions + 1 } r =
        some (st2, .ok ()) ∧
      st' = applyCaching st2 c id r v := by
  unfold createInstance at h
  cases hs : runStrategy step st c id r with
  | none => rw [hs] at h; cases h
  | some p =>
    obtain ⟨st1, e⟩ := p
    rw [hs] at h
    cases e with
    | error e0 => simp at h
    | ok inst =>
      simp only at h
      cases hcoll : applyCollection step { st1 with constructions := st1.constructions + 1 } r with
      | none => rw [hcoll] at h; cases h
      | some q =>
        obtain ⟨st2, e2⟩ := q
        rw [hcoll] at h
        cases e2 with
        | error e0 => simp at h
        | ok u =>
          cases u
          injection h with h1
          injection h1 with ha hb
          injection hb with hv
          subst hv
          exact ⟨st1, st2, rfl, hcoll, ha.symm⟩

theorem createInstance_ok_truthy
    {step : St → Nat → Option (St × Except Err Value)} {st st' : St}
    {c : List Nat} {id : Nat} {r : Reg} {v : Value}
    (h : createInstance step st c id r = some (st', .ok v))
    (ht : strategyTruthy r = true) : truthy v = true := by
  obtain ⟨st1, st2, hs, -, -⟩ := createInstance_ok_cases h
  rcases runStrategy_ok_cases hs with
    ⟨hc, stA, -, -, hv⟩ | ⟨hc, hcase⟩
  · subst hv; rfl
  · rcases hcase with ⟨w, hf, -, hv⟩ | ⟨-, -, hv⟩ | ⟨-, -, hv⟩ | ⟨-, w, -, htw, -, hv⟩
    · subst hv
      unfold strategyTruthy at ht
      rw [if_neg (by simp [hc]), hf] at ht
      exact ht
    · subst hv; rfl
    · subst hv; rfl
    · subst hv; exact htw

theorem createInstance_ok_write
    {step : St → Nat → Option (St × Except Err Value)} {st st' : St}
    {c : List Nat} {id : Nat} {r : Reg} {v : Value}
    (h : createInstance step st c id r = some (st', .ok v)) :
    (r.lifetime = .singleton → cacheLookup st' (rootOf c) id = some v) ∧
    (r.lifetime = .scoped → cacheLookup st' (headOf c) id = some v) := by
  obtain ⟨st1, st2, -, -, hcache⟩ := createInstance_ok_cases h
  subst hcache
  constructor
  · intro hl
    unfold applyCaching
    rw [hl]
    simp [cacheLookup_cacheSet]
  · intro hl
    unfold applyCaching
    rw [hl]
    simp [cacheLookup_cacheSet]

theorem createInstance_ok_constr
    {c : List Nat} {step : St → Nat → Option (St × Except Err Value)}
    (hstep : StepInv c step) {st st' : St} {id : Nat} {r : Reg} {v : Value}
    (h : createInstance step st c id r = some (st', .ok v)) :
    st.constructions + 1 ≤ st'.constructions := by
  obtain ⟨st1, st2, hs, hcoll, hcache⟩ := createInstance_ok_cases h
  have m1 : st.constructions ≤ st1.constructions :=
    (runStrategy_inv hstep st id r _ hs).constrLe
  have m2 : st1.constructions + 1 ≤ st2.constructions :=
    (applyCollection_inv hstep _ _ _ hcoll).constrLe
  rw [hcache, applyCaching_constructions]
  omega

theorem createInstance_ctor_vobj
    {c : List Nat} {step : St → Nat → Option (St × Except Err Value)}
    (hstep : StepInv c step) {st st' : St} {id : Nat} {r : Reg} {v : Value}
    (h : createInstance step st c id r = some (st', .ok v))
    (hc : r.ctor = true) :
    ∃ t, v = .vobj t ∧ st.counter ≤ t ∧ t < st'.counter := by
  obtain ⟨st1, st2, hs, hcoll, hcache⟩ := createInstance_ok_cases h
  rcases runStrategy_ok_cases hs with
    ⟨-, stA, hseq, hst1, hv⟩ | ⟨hc', -⟩
  · have m0 : st.counter ≤ stA.counter :=
      (resolveSeq_inv hstep _ _ _ hseq).counterLe
    have m1 : st1.counter = stA.counter + 1 := by rw [hst1]
    have m2 : st1.counter ≤ st2.counter := by
      have := (applyCollection_inv hstep _ _ _ hcoll).counterLe
      simpa using this
    refine ⟨stA.counter, hv, m0, ?_⟩
    rw [hcache, applyCaching_counter]
    omega
  · rw [hc] at hc'; cases hc'

/-! ## Dispatch lemmas for `getF` -/

theorem getF_notFound (fuel : Nat) (st : St) (c : List Nat) (id : Nat)
    (hl : lookupA st.registrations id = none) :
    getF (fuel + 1) st c id = some (st, .error (.registrationNotFound id)) := by
  rw [getF_succ]
  simp [hl]

theorem getF_cached (fuel : Nat) (st : St) (c : List Nat) (id : Nat)
    (r : Reg) (v : Value) (hl : lookupA st.registrations id = some r)
    (hlt : r.lifetime ≠ .transient)
    (hw : getScopedInstance st c id = some v) (ht : truthy v = true) :
    getF (fuel + 1) st c id = some (st, .ok v) := by
  rw [getF_succ]
  simp [hl, hlt, hw, ht]

theorem getF_constructs (fuel : Nat) (st : St) (c : List Nat) (id : Nat)
    (r : Reg) (hl : lookupA st.registrations id = some r)
    (hw : falsyOpt (if r.lifetime = .transient then none
            else getScopedInstance st c id) = true) :
    getF (fuel + 1) st c id =
      createInstance (fun st' d => getF fuel st' c d) st c id r := by
  rw [getF_succ]
  cases hx : (if r.lifetime = .transient then none
      else getScopedInstance st c id) with
  | none => simp [hl, hx]
  | some v =>
    rw [hx] at hw
    have ht : truthy v = false := by simpa [falsyOpt] using hw
    simp [hl, hx, ht]

/-! ## C1: the circular-dependency check on a cycle unrelated to the
starting node -/

theorem c1_lookupB : lookupA c1R 2 = some (classReg [3]) := rfl

theorem c1_lookupC : lookupA c1R 3 = some (classReg [2]) := rfl

/-- The DFS started at `A = 1` ping-pongs between `B = 2` and `C = 3`
forever: for every depth bound it runs out of fuel, whatever path
accumulator it carries. -/
theorem c1_chk_loop : ∀ (fuel : Nat) (path : List Nat),
    checkCircularDependencies c1R fuel 1 [3] path = none ∧
    checkCircularDependencies c1R fuel 1 [2] path = none := by
  intro fuel
  induction fuel with
  | zero =>
    intro path
    constructor
    · rw [checkCircularDependencies]
      simp [chkLoop, c1_lookupC, classReg]
    · rw [checkCircularDependencies]
      simp [chkLoop, c1_lookupB, classReg]
  | succ fuel ih =>
    intro path
    constructor
    · rw [checkCircularDependencies]
      simp [chkLoop, c1_lookupC, classReg, (ih (path ++ [3])).2]
    · rw [checkCircularDependencies]
      simp [chkLoop, c1_lookupB, classReg, (ih (path ++ [2])).1]

theorem c1_verify_none : ∀ fuel : Nat,
    verifyNoCircularDependenciesF c1R fuel = none := by
  intro fuel
  have hloop := (c1_chk_loop fuel []).2
  have hR : c1R = (1, classReg [2]) ::
      [(2, classReg [3]), (3, classReg [2]), (0, containerSelfReg)] := rfl
  unfold verifyNoCircularDependenciesF
  rw [hR] at hloop ⊢
  unfold verifyNoCircularGo
  have hdeps : (classReg [2]).dependencies = [2] := rfl
  rw [hdeps, hloop]

/-- C1: registering `A(needs:B)`, `B(needs:C)`, `C(needs:B)` makes the
circular-dependency check of `build()` recurse past every finite depth
bound: `build()` never terminates with a result (in JS it dies by stack
exhaustion), instead of reporting the `B,C` cycle.  The spec's
termination guarantee fails on this code. -/
theorem c1_build_diverges_on_unrelated_cycle :
    ∀ fuel : Nat, buildF fuel c1Regs = none := by
  intro fuel
  unfold buildF
  have hver : verifyRegistrations (buildRegistrations c1Regs) = .ok () := rfl
  rw [hver]
  have : buildRegistrations c1Regs = c1R := rfl
  rw [this, c1_verify_none fuel]

/-! ## Registry-validator lemmas -/

theorem lookupA_append_right {α : Type} (l l' : List (Nat × α)) (k : Nat)
    (h : hasKeyA l k = true) : lookupA (l ++ l') k = lookupA l k := by
  induction l with
  | nil => simp [hasKeyA, lookupA] at h
  | cons p rest ih =>
    obtain ⟨k₀, v₀⟩ := p
    by_cases h0 : k₀ = k
    · simp [lookupA, h0]
    · simp [hasKeyA, lookupA, h0] at h ⊢
      exact ih h

theorem lookupA_buildRegistrations (m : List (Nat × Reg)) (k : Nat)
    (h : hasKeyA m k = true) :
    lookupA (buildRegistrations m) k = lookupA m k := by
  unfold buildRegistrations
  by_cases h0 : hasKeyA m ContainerId
  · rw [if_pos h0]
  · rw [if_neg h0]
    exact lookupA_append_right m _ k h

theorem hasKeyA_buildRegistrations_of (m : List (Nat × Reg)) (k : Nat)
    (h : hasKeyA m k = true) :
    hasKeyA (buildRegistrations m) k = true := by
  unfold hasKeyA
  rw [lookupA_buildRegistrations m k h]
  exact h

theorem hasKeyA_buildRegistrations_false (m : List (Nat × Reg)) (k : Nat)
    (hm : hasKeyA m k = false) (hk : k ≠ ContainerId) :
    hasKeyA (buildRegistrations m) k = false := by
  unfold buildRegistrations
  by_cases h0 : hasKeyA m ContainerId
  · rw [if_pos h0]; exact hm
  · rw [if_neg h0]
    have hl := lookupA_append_left m [(ContainerId, containerSelfReg)] k hm
    have hk' : ¬(ContainerId = k) := fun hh => hk hh.symm
    simp [hasKeyA, hl, lookupA, hk']

theorem mem_buildRegistrations (m : List (Nat × Reg)) (p : Nat × Reg)
    (h : p ∈ m) : p ∈ buildRegistrations m := by
  unfold buildRegistrations
  by_cases h0 : hasKeyA m ContainerId
  · rw [if_pos h0]; exact h
  · rw [if_neg h0]; exact List.mem_append_left _ h

/-- If every dependency of every listed entry is a key of `regs`, the
missing-dependency scan accepts. -/
theorem verifyRegistrationsGo_ok (regs : List (Nat × Reg)) :
    ∀ l : List (Nat × Reg),
      (∀ p ∈ l, ∀ d ∈ p.2.dependencies, hasKeyA regs d = true) →
      verifyRegistrationsGo regs l [] = .ok () := by
  intro l
  induction l with
  | nil => intro _; rfl
  | cons q rest ih =>
    intro h
    obtain ⟨id0, r0⟩ := q
    have hfil : r0.dependencies.filter (fun d => !(hasKeyA regs d)) = [] := by
      refine List.filter_eq_nil_iff.mpr ?_
      intro d hd
      simp [h (id0, r0) (by simp) d hd]
    have hrest := ih (fun p hp => h p (List.mem_cons_of_mem _ hp))
    simp [verifyRegistrationsGo, hfil, hrest]

/-- If some listed entry has a dependency that is not a key of `regs`,
the scan rejects, naming the first such entry together with all of that
entry's missing dependencies. -/
theorem verifyRegistrationsGo_err (regs : List (Nat × Reg)) :
    ∀ l : List (Nat × Reg),
      (∃ p ∈ l, p.2.dependencies.filter (fun d => !(hasKeyA regs d)) ≠ []) →
      ∃ id r, (id, r) ∈ l ∧
        r.dependencies.filter (fun d => !(hasKeyA regs d)) ≠ [] ∧
        verifyRegistrationsGo regs l [] =
          .error (.missingDependencies id
            (r.dependencies.filter (fun d => !(hasKeyA regs d)))) := by
  intro l
  induction l with
  | nil =>
    intro h
    obtain ⟨p, hp, -⟩ := h
    simp at hp
  | cons q rest ih =>
    intro h
    obtain ⟨id0, r0⟩ := q
    by_cases hf : r0.dependencies.filter (fun d => !(hasKeyA regs d)) = []
    · have h' : ∃ p ∈ rest,
          p.2.dependencies.filter (fun d => !(hasKeyA regs d)) ≠ [] := by
        obtain ⟨p, hp, hne⟩ := h
        rcases List.mem_cons.mp hp with hhd | hp'
        · subst hhd; exact absurd hf hne
        · exact ⟨p, hp', hne⟩
      obtain ⟨id, r, hmem, hne, heq⟩ := ih h'
      exact ⟨id, r, List.mem_cons_of_mem _ hmem, hne, by
        simp [verifyRegistrationsGo, hf, heq]⟩
    · refine ⟨id0, r0, by simp, hf, ?_⟩
      unfold verifyRegistrationsGo
      rw [List.nil_append, if_neg hf]

/-! ## C4: a direct two-node cycle is reported as `A -> B -> A` -/

/-- C4: registering `A(needs:B)` then `B(needs:A)` makes `build()` fail
with a `CircularDependency` whose path is exactly `[A, B, A]`: the
identifiers of one concrete cycle with the start repeated at the end. -/
theorem c4_direct_cycle_reported (fuel a b : Nat) (hab : a ≠ b) :
    buildF (fuel + 1) [(a, classReg [b]), (b, classReg [a])] =
      some (.error (.circularDependency [a, b, a])) := by
  have hma : lookupA [(a, classReg [b]), (b, classReg [a])] a =
      some (classReg [b]) := by simp [lookupA]
  have hmb : lookupA [(a, classReg [b]), (b, classReg [a])] b =
      some (classReg [a]) := by simp [lookupA, hab]
  have hka : hasKeyA [(a, classReg [b]), (b, classReg [a])] a = true := by
    simp [hasKeyA, hma]
  have hkb : hasKeyA [(a, classReg [b]), (b, classReg [a])] b = true := by
    simp [hasKeyA, hmb]
  have hRb : lookupA (buildRegistrations [(a, classReg [b]), (b, classReg [a])]) b =
      some (classReg [a]) := by
    rw [lookupA_buildRegistrations _ b hkb]; exact hmb
  have hver : verifyRegistrations
      (buildRegistrations [(a, classReg [b]), (b, classReg [a])]) = .ok () := by
    unfold verifyRegistrations
    apply verifyRegistrationsGo_ok
    intro p hp d hd
    have hmem : p = (a, classReg [b]) ∨ p = (b, classReg [a]) ∨
        p = (ContainerId, containerSelfReg) := by
      unfold buildRegistrations at hp
      by_cases h0 : hasKeyA [(a, classReg [b]), (b, classReg [a])] ContainerId
      · rw [if_pos h0] at hp
        rcases List.mem_cons.mp hp with hh | hp'
        · exact Or.inl hh
        · simp at hp'
          exact Or.inr (Or.inl (by rw [hp']))
      · rw [if_neg h0] at hp
        rcases List.mem_append.mp hp with hp' | hp'
        · rcases List.mem_cons.mp hp' with hh | hp''
          · exact Or.inl hh
          · simp at hp''
            exact Or.inr (Or.inl (by rw [hp'']))
        · simp at hp'
          exact Or.inr (Or.inr (by rw [hp']))
    rcases hmem with rfl | rfl | rfl
    · simp [classReg] at hd
      rw [hd]
      exact hasKeyA_buildRegistrations_of _ b hkb
    · simp [classReg] at hd
      rw [hd]
      exact hasKeyA_buildRegistrations_of _ a hka
    · simp [containerSelfReg] at hd
  have hinner : checkCircularDependencies
      (buildRegistrations [(a, classReg [b]), (b, classReg [a])]) fuel a [a] [b] =
      some (.error (.circularDependency [a, b, a])) := by
    rw [checkCircularDependencies]
    simp [chkLoop]
  have hchk : checkCircularDependencies
      (buildRegistrations [(a, classReg [b]), (b, classReg [a])]) (fuel + 1) a [b] [] =
      some (.error (.circularDependency [a, b, a])) := by
    rw [checkCircularDependencies]
    have hdepA : (classReg [a]).dependencies = [a] := rfl
    simp [chkLoop, hab, hRb, hdepA, hinner]
  have hcons : ∃ rest,
      buildRegistrations [(a, classReg [b]), (b, classReg [a])] =
        (a, classReg [b]) :: rest := by
    unfold buildRegistrations
    by_cases h0 : hasKeyA [(a, classReg [b]), (b, classReg [a])] ContainerId
    · rw [if_pos h0]; exact ⟨[(b, classReg [a])], rfl⟩
    · rw [if_neg h0]
      exact ⟨[(b, classReg [a]), (ContainerId, containerSelfReg)], rfl⟩
  obtain ⟨rest, hcons⟩ := hcons
  have hgo : verifyNoCircularGo
      (buildRegistrations [(a, classReg [b]), (b, classReg [a])]) (fuel + 1)
      (buildRegistrations [(a, classReg [b]), (b, classReg [a])]) =
      some (.error (.circularDependency [a, b, a])) := by
    conv_lhs => rw [hcons]
    rw [hcons] at hchk
    unfold verifyNoCircularGo
    have hdeps : (classReg [b]).dependencies = [b] := rfl
    rw [hdeps, hchk]
  unfold buildF
  rw [hver]
  unfold verifyNoCircularDependenciesF
  rw [hgo]

/-! ## C3: the missing-dependency check -/

/-- C3 (amended): if some registration has a dependency that is neither
a key of the map given to `build()` nor the `Container` identifier
(which `build()` self-registers before validating), then `build()`
fails with `MissingDependencies` naming an offending registration
together with the complete (non-empty) list of that registration's
unregistered dependencies; and if every dependency of every registration
is a key of the map, the missing-dependency check passes. -/
theorem c3_missing_dependency_check (fuel : Nat) (m : List (Nat × Reg)) :
    ((∃ p ∈ m, ∃ d ∈ p.2.dependencies,
        hasKeyA m d = false ∧ d ≠ ContainerId) →
      ∃ id r, (id, r) ∈ m ∧
        r.dependencies.filter (fun d => !(hasKeyA (buildRegistrations m) d)) ≠ [] ∧
        buildF fuel m = some (.error (.missingDependencies id
          (r.dependencies.filter (fun d => !(hasKeyA (buildRegistrations m) d)))))) ∧
    ((∀ p ∈ m, ∀ d ∈ p.2.dependencies, hasKeyA m d = true) →
      verifyRegistrations (buildRegistrations m) = .ok ()) := by
  constructor
  · intro h
    obtain ⟨p, hp, d, hd, hkey, hdc⟩ := h
    have hkeyR : hasKeyA (buildRegistrations m) d = false :=
      hasKeyA_buildRegistrations_false m d hkey hdc
    have hpR : p ∈ buildRegistrations m := mem_buildRegistrations m p hp
    have hfil : p.2.dependencies.filter
        (fun d => !(hasKeyA (buildRegistrations m) d)) ≠ [] := by
      intro hnil
      have hmemf : d ∈ p.2.dependencies.filter
          (fun d => !(hasKeyA (buildRegistrations m) d)) :=
        List.mem_filter.mpr ⟨hd, by simp [hkeyR]⟩
      rw [hnil] at hmemf
      simp at hmemf
    obtain ⟨id, r, hmem, hne, heq⟩ :=
      verifyRegistrationsGo_err (buildRegistrations m) (buildRegistrations m)
        ⟨p, hpR, hfil⟩
    have hmem' : (id, r) ∈ m := by
      unfold buildRegistrations at hmem
      by_cases h0 : hasKeyA m ContainerId
      · rwa [if_pos h0] at hmem
      · rw [if_neg h0] at hmem
        rcases List.mem_append.mp hmem with h1 | h1
        · exact h1
        · exfalso
          simp at h1
          rw [h1.2] at hne
          simp [containerSelfReg] at hne
    refine ⟨id, r, hmem', hne, ?_⟩
    unfold buildF
    rw [show verifyRegistrations (buildRegistrations m) =
      verifyRegistrationsGo (buildRegistrations m) (buildRegistrations m) []
      from rfl, heq]
  · intro h
    unfold verifyRegistrations
    apply verifyRegistrationsGo_ok
    intro p hp d hd
    unfold buildRegistrations at hp
    by_cases h0 : hasKeyA m ContainerId
    · rw [if_pos h0] at hp
      exact hasKeyA_buildRegistrations_of m d (h p hp d hd)
    · rw [if_neg h0] at hp
      rcases List.mem_append.mp hp with h1 | h1
      · exact hasKeyA_buildRegistrations_of m d (h p h1 d hd)
      · exfalso
        simp at h1
        rw [h1] at hd
        simp [containerSelfReg] at hd

/-- C3 counterexample: the claim as stated is false when the missing
dependency is the `Container` identifier.  `1` depends on `Container`,
which is not a key of the map given to `build()`, yet `build()`
succeeds, because the source inserts the `Container` self-registration
before running the missing-dependency check. -/
theorem c3_counterexample :
    hasKeyA [(1, classReg [ContainerId])] ContainerId = false ∧
    ContainerId ∈ (classReg [ContainerId]).dependencies ∧
    buildF 1 [(1, classReg [ContainerId])] =
      some (.ok (initSt (buildRegistrations [(1, classReg [ContainerId])]))) :=
  ⟨rfl, by decide, rfl⟩

/-- C3 witness: registering `Dependent = 5` needing `Missing = 7` makes
`build()` fail naming `5` and `[7]`; a map whose dependencies are all
registered passes the check. -/
theorem c3_witness :
    (∃ id r, (id, r) ∈ [(5, classReg [7])] ∧
      r.dependencies.filter
        (fun d => !(hasKeyA (buildRegistrations [(5, classReg [7])]) d)) ≠ [] ∧
      buildF 2 [(5, classReg [7])] = some (.error (.missingDependencies id
        (r.dependencies.filter
          (fun d => !(hasKeyA (buildRegistrations [(5, classReg [7])]) d)))))) ∧
    verifyRegistrations (buildRegistrations [(5, classReg []), (6, classReg [5])]) =
      .ok () :=
  ⟨(c3_missing_dependency_check 2 [(5, classReg [7])]).1
      ⟨(5, classReg [7]), by decide, 7, by decide, rfl, by decide⟩,
    (c3_missing_dependency_check 2 [(5, classReg []), (6, classReg [5])]).2
      (by decide)⟩

/-- C4 witness: the concrete instance `A = 1`, `B = 2` from the test
suite scenario. -/
theorem c4_witness :
    (1 : Nat) ≠ 2 ∧
    buildF 1 [(1, classReg [2]), (2, classReg [1])] =
      some (.error (.circularDependency [1, 2, 1])) :=
  ⟨by decide, c4_direct_cycle_reported 0 1 2 (by decide)⟩

/-! ## C9: the `Container` self-registration -/

theorem buildF_ok_shape (fuel : Nat) (m : List (Nat × Reg)) (st : St)
    (h : buildF fuel m = some (.ok st)) :
    st = initSt (buildRegistrations m) := by
  unfold buildF at h
  split at h
  · simp at h
  · split at h
    · cases h
    · simp at h
    · simp at h
      exact h.symm

theorem cacheLookup_initSt (regs : List (Nat × Reg)) (n id : Nat) :
    cacheLookup (initSt regs) n id = none := rfl

/-- C9: when `build()` succeeds it has inserted the singleton,
factory-based self-registration for the `Container` identifier unless
the caller registered that identifier (the caller's registration is
kept).  `get(Container)` on the fresh root then returns the root
container itself, and a custom instance-based `Container` registration
resolves to the caller's instance. -/
theorem c9_container_self_registration (fuel fuel2 : Nat)
    (m : List (Nat × Reg)) (st0 : St)
    (h : buildF fuel m = some (.ok st0)) :
    (hasKeyA m ContainerId = false →
      lookupA st0.registrations ContainerId = some containerSelfReg ∧
      getF (fuel2 + 1) st0 rootChain ContainerId =
        some (applyCaching { st0 with constructions := st0.constructions + 1 }
          rootChain ContainerId containerSelfReg (.vnode 0), .ok (.vnode 0))) ∧
    (∀ r, lookupA m ContainerId = some r →
      lookupA st0.registrations ContainerId = some r) ∧
    (∀ r v, lookupA m ContainerId = some r → r.ctor = false →
      r.factory = none → r.instVal = some v → truthy v = true →
      r.collectionDependencies = none →
      getF (fuel2 + 1) st0 rootChain ContainerId =
        some (applyCaching { st0 with constructions := st0.constructions + 1 }
          rootChain ContainerId r v, .ok v)) := by
  have hst : st0 = initSt (buildRegistrations m) := buildF_ok_shape fuel m st0 h
  subst hst
  have hwalk : getScopedInstance (initSt (buildRegistrations m)) rootChain
      ContainerId = none :=
    getScopedInstance_of_none _ _ _ (fun n _ => rfl)
  refine ⟨?_, ?_, ?_⟩
  · intro hnc
    have hR : buildRegistrations m = m ++ [(ContainerId, containerSelfReg)] := by
      unfold buildRegistrations
      rw [if_neg (by simp [hnc])]
    have hlook : lookupA (initSt (buildRegistrations m)).registrations
        ContainerId = some containerSelfReg := by
      show lookupA (buildRegistrations m) ContainerId = _
      rw [hR, lookupA_append_left m _ _ hnc]
      rfl
    refine ⟨hlook, ?_⟩
    rw [getF_constructs fuel2 _ _ _ containerSelfReg hlook
      (by simp [containerSelfReg, hwalk, falsyOpt])]
    rfl
  · intro r hr
    show lookupA (buildRegistrations m) ContainerId = some r
    rw [lookupA_buildRegistrations m ContainerId (by simp [hasKeyA, hr])]
    exact hr
  · intro r v hr hctor hf hi htruthy hcoll
    have hlook : lookupA (initSt (buildRegistrations m)).registrations
        ContainerId = some r := by
      show lookupA (buildRegistrations m) ContainerId = some r
      rw [lookupA_buildRegistrations m ContainerId (by simp [hasKeyA, hr])]
      exact hr
    rw [getF_constructs fuel2 _ _ _ r hlook
      (by by_cases hq : r.lifetime = .transient <;> simp [hq, hwalk, falsyOpt])]
    unfold createInstance runStrategy applyCollection
    simp [hctor, hf, hi, htruthy, hcoll]

/-- C9 witness: a map without a `Container` registration gets the
self-registration and resolves `Container` to the root node; a map with
a custom instance-based `Container` registration keeps and resolves it. -/
theorem c9_witness :
    (lookupA (initSt (buildRegistrations [(1, classRegL .singleton)])).registrations
        ContainerId = some containerSelfReg ∧
      getF 1 (initSt (buildRegistrations [(1, classRegL .singleton)])) rootChain
          ContainerId =
        some (applyCaching
          { initSt (buildRegistrations [(1, classRegL .singleton)]) with
            constructions :=
              (initSt (buildRegistrations [(1, classRegL .singleton)])).constructions + 1 }
          rootChain ContainerId containerSelfReg (.vnode 0), .ok (.vnode 0))) ∧
    (lookupA (initSt (buildRegistrations [(0, instanceReg (.vobj 9))])).registrations
        ContainerId = some (instanceReg (.vobj 9)) ∧
      getF 1 (initSt (buildRegistrations [(0, instanceReg (.vobj 9))])) rootChain
          ContainerId =
        some (applyCaching
          { initSt (buildRegistrations [(0, instanceReg (.vobj 9))]) with
            constructions :=
              (initSt (buildRegistrations [(0, instanceReg (.vobj 9))])).constructions + 1 }
          rootChain ContainerId (instanceReg (.vobj 9)) (.vobj 9), .ok (.vobj 9))) :=
  ⟨(c9_container_self_registration 1 0 [(1, classRegL .singleton)] _ rfl).1 rfl,
    (c9_container_self_registration 1 0 [(0, instanceReg (.vobj 9))] _ rfl).2.1
        (instanceReg (.vobj 9)) rfl,
    (c9_container_self_registration 1 0 [(0, instanceReg (.vobj 9))] _ rfl).2.2
        (instanceReg (.vobj 9)) (.vobj 9) rfl rfl rfl rfl rfl rfl⟩

/-! ## C8: resolution-time errors leave every cache untouched -/

/-- C8: `get` on an unregistered identifier fails with
`RegistrationNotFound`, and `get` on a registration with none of the
three creation strategies set fails with `InvalidRegistration`; in both
cases the returned state is exactly the input state, so no scope node's
instance cache is modified. -/
theorem c8_resolution_errors_atomic (fuel : Nat) (st : St) (c : List Nat)
    (id : Nat) :
    (lookupA st.registrations id = none →
      getF (fuel + 1) st c id = some (st, .error (.registrationNotFound id))) ∧
    (∀ r, lookupA st.registrations id = some r → r.ctor = false →
      r.factory = none → r.instVal = none →
      (∀ n ∈ c, cacheLookup st n id = none) →
      getF (fuel + 1) st c id = some (st, .error (.invalidRegistration id))) := by
  constructor
  · intro hl
    exact getF_notFound fuel st c id hl
  · intro r hl hctor hf hi hc
    have hwalk : getScopedInstance st c id = none :=
      getScopedInstance_of_none st c id hc
    rw [getF_constructs fuel st c id r hl
      (by by_cases hq : r.lifetime = .transient <;> simp [hq, hwalk, falsyOpt])]
    unfold createInstance runStrategy
    simp [hctor, hf, hi]

/-- C8 witness: on a freshly built empty registry, resolving the
unregistered identifier `3` reports `RegistrationNotFound`; on a map
holding a strategy-less registration under `4`, resolving `4` reports
`InvalidRegistration`; both leave the state untouched. -/
theorem c8_witness :
    getF 1 (initSt (buildRegistrations [])) rootChain 3 =
      some (initSt (buildRegistrations []), .error (.registrationNotFound 3)) ∧
    getF 1 (initSt (buildRegistrations [(4, emptyReg .transient)])) rootChain 4 =
      some (initSt (buildRegistrations [(4, emptyReg .transient)]),
        .error (.invalidRegistration 4)) :=
  ⟨(c8_resolution_errors_atomic 0 (initSt (buildRegistrations [])) rootChain 3).1 rfl,
    (c8_resolution_errors_atomic 0
        (initSt (buildRegistrations [(4, emptyReg .transient)])) rootChain 4).2
      (emptyReg .transient) rfl rfl rfl rfl (fun _ _ => rfl)⟩

/-! ## C10: falsy constructed values defeat singleton/scoped caching -/

/-- C10: the cache lookup tests truthiness, not key presence.  For a
non-transient registration whose factory returns a fixed falsy value,
`get` re-runs construction (the ghost counter increments) even though
every previous `get` cached the value, it stores the falsy value again,
and afterwards every cache binding for the identifier is still falsy, so
the next `get` re-runs construction too. -/
theorem c10_falsy_never_cached (fuel : Nat) (st : St) (c : List Nat)
    (id : Nat) (r : Reg) (v : Value)
    (hr : lookupA st.registrations id = some r) (hctor : r.ctor = false)
    (hf : r.factory = some (.const v)) (hfalsy : truthy v = false)
    (hlt : r.lifetime ≠ .transient) (hcoll : r.collectionDependencies = none)
    (hc : ∀ n, falsyOpt (cacheLookup st n id) = true) :
    getF (fuel + 1) st c id =
      some (applyCaching { st with constructions := st.constructions + 1 }
        c id r v, .ok v) ∧
    (∀ n, falsyOpt (cacheLookup
      (applyCaching { st with constructions := st.constructions + 1 }
        c id r v) n id) = true) := by
  constructor
  · have hwalk : falsyOpt (getScopedInstance st c id) = true :=
      getScopedInstance_falsy st c id (fun n _ => hc n)
    rw [getF_constructs fuel st c id r hr (by
      by_cases hq : r.lifetime = .transient
      · simp [hq, falsyOpt]
      · rw [if_neg hq]; exact hwalk)]
    unfold createInstance runStrategy applyCollection
    simp [hctor, hf, hcoll]
  · intro n
    unfold applyCaching
    cases hq : r.lifetime
    · rw [cacheLookup_cacheSet]
      by_cases hit : rootOf c = n ∧ id = id
      · rw [if_pos hit]
        simp [falsyOpt, hfalsy]
      · rw [if_neg hit]
        exact hc n
    · exact absurd hq hlt
    · rw [cacheLookup_cacheSet]
      by_cases hit : headOf c = n ∧ id = id
      · rw [if_pos hit]
        simp [falsyOpt, hfalsy]
      · rw [if_neg hit]
        exact hc n

/-- C10 witness: two successive `get(1)` calls on the root of the
concrete null-factory singleton each run the factory (the ghost counter
reaches 2) and return `null`, caching defeated both times. -/
theorem c10_witness :
    getF 1 c10St0 rootChain 1 = some (c10St1, .ok .vnull) ∧
    getF 1 c10St1 rootChain 1 = some (c10St2, .ok .vnull) ∧
    c10St2.constructions = 2 :=
  ⟨(c10_falsy_never_cached 0 c10St0 rootChain 1 c10Reg .vnull rfl rfl rfl rfl
      (by decide) rfl (fun _ => rfl)).1,
    (c10_falsy_never_cached 0 c10St1 rootChain 1 c10Reg .vnull rfl rfl rfl rfl
      (by decide) rfl
      (c10_falsy_never_cached 0 c10St0 rootChain 1 c10Reg .vnull rfl rfl rfl rfl
        (by decide) rfl (fun _ => rfl)).2).1,
    rfl⟩

/-! ## C2: override visibility across sibling scopes -/

/-- C2 (amended): after scope `a` (a child of the root) overrides `id`
with the truthy instance `v`: (1) `a.get(id)` returns `v`; (2) a sibling
scope `b` that already holds a truthy pre-override cached instance `w`
still returns `w`; (3) but a sibling with no cached instance on its
chain receives the override instance `v` too, because `override`
replaced the entry in the registration map shared by every scope. -/
theorem c2_override_visibility (f1 f2 f3 : Nat) (st : St) (a b id : Nat)
    (v : Value) (hv : truthy v = true) (_hab : a ≠ b) :
    (getF (f1 + 1) (overrideOp st [a, 0] id v) [a, 0] id =
      some (overrideOp st [a, 0] id v, .ok v)) ∧
    (∀ w, truthy w = true →
      cacheLookup (overrideOp st [a, 0] id v) b id = some w →
      getF (f2 + 1) (overrideOp st [a, 0] id v) [b, 0] id =
        some (overrideOp st [a, 0] id v, .ok w)) ∧
    (cacheLookup (overrideOp st [a, 0] id v) b id = none →
      cacheLookup (overrideOp st [a, 0] id v) 0 id = none →
      getF (f3 + 1) (overrideOp st [a, 0] id v) [b, 0] id =
        some (cacheSet { overrideOp st [a, 0] id v with
            constructions := (overrideOp st [a, 0] id v).constructions + 1 }
          b id v, .ok v)) := by
  have hreg : lookupA (overrideOp st [a, 0] id v).registrations id =
      some (mkOverrideReg v) := by
    show lookupA (setA st.registrations id (mkOverrideReg v)) id = _
    rw [lookupA_setA]
    simp
  have hlt : (mkOverrideReg v).lifetime ≠ .transient := by
    simp [mkOverrideReg]
  refine ⟨?_, ?_, ?_⟩
  · have hcache : cacheLookup (overrideOp st [a, 0] id v) a id = some v := by
      unfold overrideOp
      rw [show headOf [a, 0] = a from rfl, cacheLookup_cacheSet]
      simp
    have hwalk : getScopedInstance (overrideOp st [a, 0] id v) [a, 0] id =
        some v := by
      rw [getScopedInstance_cons, hcache]
      simp [falsyOpt, hv]
    exact getF_cached f1 _ _ _ _ v hreg hlt hwalk hv
  · intro w hw hcw
    have hwalk : getScopedInstance (overrideOp st [a, 0] id v) [b, 0] id =
        some w := by
      rw [getScopedInstance_cons, hcw]
      simp [falsyOpt, hw]
    exact getF_cached f2 _ _ _ _ w hreg hlt hwalk hw
  · intro hcb hc0
    have hwalk : getScopedInstance (overrideOp st [a, 0] id v) [b, 0] id =
        none := by
      rw [getScopedInstance_cons, hcb]
      simp [falsyOpt]
      rw [getScopedInstance_cons, hc0]
      simp [falsyOpt]
    rw [getF_constructs f3 _ _ _ _ hreg (by rw [if_neg hlt, hwalk]; rfl)]
    unfold createInstance runStrategy applyCollection
    simp [mkOverrideReg, hv, applyCaching]
    rfl

/-- C2 counterexample: with `5` registered scoped and class-based,
scope `1` overrides `5` with the object `vobj 100`; the sibling scope
`2`, which never overrode and never resolved, then receives the
override instance `vobj 100` from `get(5)` — not an instance of the
originally-registered class (a fresh run on the sibling without the
override constructs `vobj 0`). -/
theorem c2_counterexample :
    resultOf (getF 1 (overrideOp c2St0 [1, 0] 5 (.vobj 100)) [2, 0] 5) =
      some (.ok (.vobj 100)) ∧
    resultOf (getF 1 c2St0 [2, 0] 5) = some (.ok (.vobj 0)) ∧
    Value.vobj 100 ≠ Value.vobj 0 :=
  ⟨rfl, rfl, by decide⟩

/-- C2 witness: the three branches of the override-visibility theorem at
the concrete scenario (sibling pre-resolved instance `vobj 0`). -/
theorem c2_witness :
    (getF 1 (overrideOp c2St0 [1, 0] 5 (.vobj 100)) [1, 0] 5 =
      some (overrideOp c2St0 [1, 0] 5 (.vobj 100), .ok (.vobj 100))) ∧
    (getF 1 (overrideOp (cacheSet c2St0 2 5 (.vobj 0)) [1, 0] 5 (.vobj 100)) [2, 0] 5 =
      some (overrideOp (cacheSet c2St0 2 5 (.vobj 0)) [1, 0] 5 (.vobj 100),
        .ok (.vobj 0))) ∧
    (getF 1 (overrideOp c2St0 [1, 0] 5 (.vobj 100)) [2, 0] 5 =
      some (cacheSet { overrideOp c2St0 [1, 0] 5 (.vobj 100) with
          constructions := (overrideOp c2St0 [1, 0] 5 (.vobj 100)).constructions + 1 }
        2 5 (.vobj 100), .ok (.vobj 100))) :=
  ⟨(c2_override_visibility 0 0 0 c2St0 1 2 5 (.vobj 100) rfl (by decide)).1,
    (c2_override_visibility 0 0 0 (cacheSet c2St0 2 5 (.vobj 0)) 1 2 5 (.vobj 100)
      rfl (by decide)).2.1 (.vobj 0) rfl rfl,
    (c2_override_visibility 0 0 0 c2St0 1 2 5 (.vobj 100) rfl (by decide)).2.2
      rfl rfl⟩

/-! ## Frame corollaries of `getF_inv` -/

theorem getF_cache_frame (fuel : Nat) (st st' : St) (c : List Nat)
    (id' k : Nat) (e : Except Err Value) (rk : Reg)
    (h : getF fuel st c id' = some (st', e))
    (hk : lookupA st.registrations k = some rk) :
    (rk.lifetime = .singleton →
      ∀ n, n ≠ rootOf c → cacheLookup st' n k = cacheLookup st n k) ∧
    (rk.lifetime = .scoped →
      ∀ n, n ≠ headOf c → cacheLookup st' n k = cacheLookup st n k) ∧
    (rk.lifetime = .transient →
      ∀ n, cacheLookup st' n k = cacheLookup st n k) := by
  have hinv : GetInv c st st' := getF_inv fuel st c id' (st', e) h
  refine ⟨?_, ?_, ?_⟩
  · intro hl n hn
    rcases hinv.cache n k with heq | ⟨rk', hrk', hd⟩
    · exact heq
    · rw [hk] at hrk'
      injection hrk' with hrk'
      subst hrk'
      rcases hd with ⟨-, hn'⟩ | ⟨hsc, -⟩
      · exact absurd hn' hn
      · rw [hl] at hsc; cases hsc
  · intro hl n hn
    rcases hinv.cache n k with heq | ⟨rk', hrk', hd⟩
    · exact heq
    · rw [hk] at hrk'
      injection hrk' with hrk'
      subst hrk'
      rcases hd with ⟨hsg, -⟩ | ⟨-, hn'⟩
      · rw [hl] at hsg; cases hsg
      · exact absurd hn' hn
  · intro hl n
    rcases hinv.cache n k with heq | ⟨rk', hrk', hd⟩
    · exact heq
    · rw [hk] at hrk'
      injection hrk' with hrk'
      subst hrk'
      rcases hd with ⟨hsg, -⟩ | ⟨hsc, -⟩
      · rw [hl] at hsg; cases hsg
      · rw [hl] at hsc; cases hsc

/-! ## C5: singleton identity across the scope tree -/

/-- C5 (amended): for an identifier registered `singleton` whose
creation strategy produces truthy instances, if two resolutions run from
any two chains of one tree (sharing a root) starting from a state where
the identifier is cached nowhere, then the first resolution stores the
instance in the root node's cache, the second returns the very same
instance, and the second resolution does not change the state at all (no
reconstruction).  By symmetry of the quantifiers this holds regardless
of which scope resolves first. -/
theorem c5_singleton_identity (f1 f2 : Nat) (st st1 st2 : St)
    (s1 s2 : List Nat) (id : Nat) (r : Reg) (v1 v2 : Value)
    (hr : lookupA st.registrations id = some r)
    (hsing : r.lifetime = .singleton)
    (htr : strategyTruthy r = true)
    (_hs1 : s1 ≠ []) (hs2 : s2 ≠ [])
    (hroot : rootOf s2 = rootOf s1)
    (hempty : ∀ n, cacheLookup st n id = none)
    (h1 : getF f1 st s1 id = some (st1, .ok v1))
    (h2 : getF f2 st1 s2 id = some (st2, .ok v2)) :
    v2 = v1 ∧ st2 = st1 ∧
    cacheLookup st1 (rootOf s1) id = some v1 ∧ truthy v1 = true := by
  obtain ⟨g1, rfl⟩ : ∃ g, f1 = g + 1 := by
    cases f1 with
    | zero => simp [getF] at h1
    | succ g => exact ⟨g, rfl⟩
  have hwalk1 : getScopedInstance st s1 id = none :=
    getScopedInstance_of_none st s1 id (fun n _ => hempty n)
  rw [getF_constructs g1 st s1 id r hr
    (by rw [if_neg (by simp [hsing]), hwalk1]; rfl)] at h1
  have hstep1 : StepInv s1 (fun st' d => getF g1 st' s1 d) :=
    fun st' d res h' => getF_inv g1 st' s1 d res h'
  have htruthy1 : truthy v1 = true := createInstance_ok_truthy h1 htr
  have hrootw : cacheLookup st1 (rootOf s1) id = some v1 :=
    (createInstance_ok_write h1).1 hsing
  have hinv1 : GetInv s1 st st1 :=
    createInstance_inv hstep1 st id r (st1, .ok v1) hr h1
  have hoff : ∀ n, n ≠ rootOf s1 → cacheLookup st1 n id = none := by
    intro n hn
    rcases hinv1.cache n id with heq | ⟨rk, hrk, hd⟩
    · rw [heq]; exact hempty n
    · rw [hr] at hrk
      injection hrk with hrk
      subst hrk
      rcases hd with ⟨-, hn'⟩ | ⟨hsc, -⟩
      · exact absurd hn' hn
      · rw [hsing] at hsc; cases hsc
  obtain ⟨g2, rfl⟩ : ∃ g, f2 = g + 1 := by
    cases f2 with
    | zero => simp [getF] at h2
    | succ g => exact ⟨g, rfl⟩
  have hreg1 : lookupA st1.registrations id = some r := by
    rw [hinv1.regs]; exact hr
  have hwalk2 : getScopedInstance st1 s2 id = some v1 :=
    getScopedInstance_finds st1 s2 id (rootOf s1) v1 htruthy1 hrootw hoff hs2 hroot
  rw [getF_cached g2 st1 s2 id r v1 hreg1 (by simp [hsing]) hwalk2 htruthy1] at h2
  injection h2 with h2'
  injection h2' with ha hb
  injection hb with hv
  exact ⟨hv.symm, ha.symm, hrootw, htruthy1⟩

/-- C5 counterexample: a singleton whose factory returns the falsy
value `0` is stored in the root cache after the first `get`, yet the
second `get` runs construction again (the ghost counter reaches 2),
falsifying "never reconstructed afterwards" as stated. -/
theorem c5_counterexample :
    getF 1 c5St0 rootChain 2 = some (c5St1, .ok (.vnum 0)) ∧
    getF 1 c5St1 rootChain 2 = some (c5St2, .ok (.vnum 0)) ∧
    cacheLookup c5St1 0 2 = some (.vnum 0) ∧
    c5St1.constructions = 1 ∧ c5St2.constructions = 2 :=
  ⟨rfl, rfl, rfl, rfl, rfl⟩

/-- C5 witness: the class-based singleton `4` resolved first from scope
`[1, 0]` and then from scope `[2, 0]` yields the same object `vobj 0`,
cached at the root, with the second resolution leaving the state
unchanged. -/
theorem c5_witness :
    Value.vobj 0 = Value.vobj 0 ∧ c5WSt1 = c5WSt1 ∧
    cacheLookup c5WSt1 (rootOf [1, 0]) 4 = some (.vobj 0) ∧
    truthy (.vobj 0) = true :=
  c5_singleton_identity 1 1 c5WSt0 c5WSt1 c5WSt1 [1, 0] [2, 0] 4
    (classRegL .singleton) (.vobj 0) (.vobj 0) rfl rfl rfl (by decide)
    (by decide) rfl (fun _ => rfl) rfl rfl

/-! ## C6: scoped isolation and inheritance -/

/-- C6 (amended): for an identifier registered `scoped` and class-based
(construction allocates a fresh object), starting from a state where the
identifier is cached nowhere: a resolution on scope `a` caches the
instance at `a`; a later resolution on a scope `b` whose chain does not
pass through `a` constructs and caches a distinct instance at `b`; and a
child scope created under `a` afterwards returns `a`'s instance without
constructing.  (For a factory returning a shared fixed object the
sibling instances coincide, hence the class-based restriction.) -/
theorem c6_scoped_isolation_inheritance (f1 f2 f3 : Nat) (st st1 st2 : St)
    (a : Nat) (tl : List Nat) (b : Nat) (tl' : List Nat) (cnew id : Nat)
    (r : Reg) (v1 v2 : Value)
    (hr : lookupA st.registrations id = some r)
    (hsc : r.lifetime = .scoped) (hctor : r.ctor = true)
    (hnot : a ∉ b :: tl')
    (hempty : ∀ n, cacheLookup st n id = none)
    (hca : cnew ≠ a) (hcb : cnew ≠ b)
    (h1 : getF f1 st (a :: tl) id = some (st1, .ok v1))
    (h2 : getF f2 st1 (b :: tl') id = some (st2, .ok v2)) :
    v1 ≠ v2 ∧
    cacheLookup st1 a id = some v1 ∧
    cacheLookup st2 b id = some v2 ∧
    getF (f3 + 1) st2 (cnew :: a :: tl) id = some (st2, .ok v1) := by
  obtain ⟨g1, rfl⟩ : ∃ g, f1 = g + 1 := by
    cases f1 with
    | zero => simp [getF] at h1
    | succ g => exact ⟨g, rfl⟩
  have hwalk1 : getScopedInstance st (a :: tl) id = none :=
    getScopedInstance_of_none st _ id (fun n _ => hempty n)
  rw [getF_constructs g1 st (a :: tl) id r hr
    (by rw [if_neg (by simp [hsc]), hwalk1]; rfl)] at h1
  have hstep1 : StepInv (a :: tl) (fun st' d => getF g1 st' (a :: tl) d) :=
    fun st' d res h' => getF_inv g1 st' (a :: tl) d res h'
  obtain ⟨t1, hv1, ht1lo, ht1hi⟩ := createInstance_ctor_vobj hstep1 h1 hctor
  have hw1 : cacheLookup st1 a id = some v1 :=
    (createInstance_ok_write h1).2 hsc
  have hinv1 : GetInv (a :: tl) st st1 :=
    createInstance_inv hstep1 st id r (st1, .ok v1) hr h1
  have hoff1 : ∀ n, n ≠ a → cacheLookup st1 n id = none := by
    intro n hn
    rcases hinv1.cache n id with heq | ⟨rk, hrk, hd⟩
    · rw [heq]; exact hempty n
    · rw [hr] at hrk
      injection hrk with hrk
      subst hrk
      rcases hd with ⟨hsg, -⟩ | ⟨-, hn'⟩
      · rw [hsc] at hsg; cases hsg
      · exact absurd hn' hn
  obtain ⟨g2, rfl⟩ : ∃ g, f2 = g + 1 := by
    cases f2 with
    | zero => simp [getF] at h2
    | succ g => exact ⟨g, rfl⟩
  have hreg1 : lookupA st1.registrations id = some r := by
    rw [hinv1.regs]; exact hr
  have hwalk2 : getScopedInstance st1 (b :: tl') id = none := by
    apply getScopedInstance_of_none
    intro n hn
    exact hoff1 n (fun hna => hnot (hna ▸ hn))
  rw [getF_constructs g2 st1 (b :: tl') id r hreg1
    (by rw [if_neg (by simp [hsc]), hwalk2]; rfl)] at h2
  have hstep2 : StepInv (b :: tl') (fun st' d => getF g2 st' (b :: tl') d) :=
    fun st' d res h' => getF_inv g2 st' (b :: tl') d res h'
  obtain ⟨t2, hv2, ht2lo, ht2hi⟩ := createInstance_ctor_vobj hstep2 h2 hctor
  have hw2 : cacheLookup st2 b id = some v2 :=
    (createInstance_ok_write h2).2 hsc
  have hinv2 : GetInv (b :: tl') st1 st2 :=
    createInstance_inv hstep2 st1 id r (st2, .ok v2) hreg1 h2
  have hab : a ≠ b := fun h => hnot (h ▸ List.mem_cons_self b tl')
  have hsurv : cacheLookup st2 a id = some v1 := by
    rcases hinv2.cache a id with heq | ⟨rk, hrk, hd⟩
    · rw [heq]; exact hw1
    · rw [hreg1] at hrk
      injection hrk with hrk
      subst hrk
      rcases hd with ⟨hsg, -⟩ | ⟨-, hn'⟩
      · rw [hsc] at hsg; cases hsg
      · exact absurd hn' hab
  have hcnone : cacheLookup st2 cnew id = none := by
    rcases hinv2.cache cnew id with heq | ⟨rk, hrk, hd⟩
    · rw [heq]; exact hoff1 cnew hca
    · rw [hreg1] at hrk
      injection hrk with hrk
      subst hrk
      rcases hd with ⟨hsg, -⟩ | ⟨-, hn'⟩
      · rw [hsc] at hsg; cases hsg
      · exact absurd hn' hcb
  have hne : v1 ≠ v2 := by
    rw [hv1, hv2]
    intro h
    injection h with h
    omega
  have htruthy1 : truthy v1 = true := by rw [hv1]; rfl
  have hreg2 : lookupA st2.registrations id = some r := by
    rw [hinv2.regs]; exact hreg1
  have hwalk3 : getScopedInstance st2 (cnew :: a :: tl) id = some v1 := by
    rw [getScopedInstance_cons, hcnone]
    simp only [falsyOpt, List.isEmpty_cons, Bool.not_false, Bool.and_true,
      if_true]
    rw [getScopedInstance_cons, hsurv]
    simp [falsyOpt, htruthy1]
  refine ⟨hne, hw1, hw2, ?_⟩
  exact getF_cached f3 st2 (cnew :: a :: tl) id r v1 hreg2
    (by simp [hsc]) hwalk3 htruthy1

/-- C6 counterexample: with `7` registered scoped through a factory
returning the shared object `vobj 77`, the sibling scopes `[1, 0]` and
`[2, 0]` both receive `vobj 77` — the same object, falsifying
`s1.get(id) != s2.get(id)` as stated for every scoped registration. -/
theorem c6_counterexample :
    getF 1 c6St0 [1, 0] 7 = some (c6St1, .ok (.vobj 77)) ∧
    getF 1 c6St1 [2, 0] 7 = some (c6St2, .ok (.vobj 77)) :=
  ⟨rfl, rfl⟩

/-- C6 witness: the class-based scoped `6`: siblings `[1, 0]` and
`[2, 0]` receive the distinct objects `vobj 0` and `vobj 1`, each cached
at its resolving node, and the child `[3, 1, 0]` created afterwards
inherits `vobj 0` without constructing. -/
theorem c6_witness :
    Value.vobj 0 ≠ Value.vobj 1 ∧
    cacheLookup c6WSt1 1 6 = some (.vobj 0) ∧
    cacheLookup c6WSt2 2 6 = some (.vobj 1) ∧
    getF 1 c6WSt2 [3, 1, 0] 6 = some (c6WSt2, .ok (.vobj 0)) :=
  c6_scoped_isolation_inheritance 1 1 0 c6WSt0 c6WSt1 c6WSt2 1 [0] 2 [0] 3 6
    (classRegL .scoped) (.vobj 0) (.vobj 1) rfl rfl rfl (by decide)
    (fun _ => rfl) (by decide) (by decide) rfl rfl

/-! ## C7: transient freshness -/

theorem getF_transient_ctor (fuel : Nat) (st st' : St) (c : List Nat)
    (id : Nat) (r : Reg) (v : Value)
    (hr : lookupA st.registrations id = some r)
    (hlt : r.lifetime = .transient) (hctor : r.ctor = true)
    (h : getF fuel st c id = some (st', .ok v)) :
    (∃ t, v = .vobj t ∧ st.counter ≤ t ∧ t < st'.counter) ∧
    (∀ n, cacheLookup st' n id = cacheLookup st n id) ∧
    st.constructions + 1 ≤ st'.constructions ∧
    st'.registrations = st.registrations ∧
    st.counter ≤ st'.counter := by
  obtain ⟨g, rfl⟩ : ∃ g, fuel = g + 1 := by
    cases fuel with
    | zero => simp [getF] at h
    | succ g => exact ⟨g, rfl⟩
  rw [getF_constructs g st c id r hr (by rw [if_pos hlt]; rfl)] at h
  have hstep : StepInv c (fun st' d => getF g st' c d) :=
    fun st' d res h' => getF_inv g st' c d res h'
  have hinv : GetInv c st st' :=
    createInstance_inv hstep st id r (st', .ok v) hr h
  refine ⟨createInstance_ctor_vobj hstep h hctor, ?_,
    createInstance_ok_constr hstep h, hinv.regs, hinv.counterLe⟩
  intro n
  rcases hinv.cache n id with heq | ⟨rk, hrk, hd⟩
  · exact heq
  · rw [hr] at hrk
    injection hrk with hrk
    subst hrk
    rcases hd with ⟨hsg, -⟩ | ⟨hsc, -⟩
    · rw [hlt] at hsg; cases hsg
    · rw [hlt] at hsc; cases hsc

theorem c7aux (id : Nat) (r : Reg) (hlt : r.lifetime = .transient)
    (hctor : r.ctor = true) :
    ∀ (n fuel : Nat) (st st' : St) (c : List Nat) (vs : List Value),
      lookupA st.registrations id = some r →
      getNF fuel st c id n = some (st', .ok vs) →
      vs.length = n ∧
      (∀ v ∈ vs, ∃ t, v = .vobj t ∧ st.counter ≤ t ∧ t < st'.counter) ∧
      vs.Pairwise (· ≠ ·) ∧
      (∀ nd, cacheLookup st' nd id = cacheLookup st nd id) ∧
      st.constructions + n ≤ st'.constructions ∧
      st'.registrations = st.registrations ∧
      st.counter ≤ st'.counter := by
  intro n
  induction n with
  | zero =>
    intro fuel st st' c vs hr h
    unfold getNF at h
    injection h with h'
    injection h' with ha hb
    injection hb with hv
    subst ha
    subst hv
    exact ⟨rfl, by simp, List.Pairwise.nil, fun _ => rfl, Nat.le_refl _,
      rfl, Nat.le_refl _⟩
  | succ n ih =>
    intro fuel st st' c vs hr h
    unfold getNF at h
    cases hg : getF fuel st c id with
    | none => rw [hg] at h; cases h
    | some p =>
      obtain ⟨stm, e⟩ := p
      rw [hg] at h
      cases e with
      | error e0 => simp at h
      | ok v =>
        simp only at h
        cases hgn : getNF fuel stm c id n with
        | none => rw [hgn] at h; cases h
        | some q =>
          obtain ⟨stq, e2⟩ := q
          rw [hgn] at h
          cases e2 with
          | error e0 => simp at h
          | ok vs0 =>
            injection h with h'
            injection h' with ha hb
            injection hb with hv
            subst ha
            subst hv
            obtain ⟨⟨t, hvt, htlo, hthi⟩, hcache1, hcon1, hregs1, hcnt1⟩ :=
              getF_transient_ctor fuel st stm c id r v hr hlt hctor hg
            have hrm : lookupA stm.registrations id = some r := by
              rw [hregs1]; exact hr
            obtain ⟨hlen, hmem, hpw, hcache2, hcon2, hregs2, hcnt2⟩ :=
              ih fuel stm stq c vs0 hrm hgn
            refine ⟨by simp [hlen], ?_, ?_, ?_, by omega, ?_, by omega⟩
            · intro w hw
              rcases List.mem_cons.mp hw with rfl | hw'
              · exact ⟨t, hvt, htlo, Nat.lt_of_lt_of_le hthi hcnt2⟩
              · obtain ⟨s, hws, hslo, hshi⟩ := hmem w hw'
                exact ⟨s, hws, Nat.le_trans hcnt1 hslo, hshi⟩
            · refine List.pairwise_cons.mpr ⟨?_, hpw⟩
              intro w hw'
              obtain ⟨s, hws, hslo, -⟩ := hmem w hw'
              rw [hvt, hws]
              intro heq
              injection heq with heq
              omega
            · intro nd
              rw [hcache2 nd, hcache1 nd]
            · rw [hregs2, hregs1]

theorem getF_transient_ctor_nodeps (fuel : Nat) (st : St) (c : List Nat)
    (id : Nat) (r : Reg)
    (hr : lookupA st.registrations id = some r)
    (hlt : r.lifetime = .transient) (hctor : r.ctor = true)
    (hdeps : r.ctorDependencies = [])
    (hcoll : r.collectionDependencies = none) :
    getF (fuel + 1) st c id =
      some ({ st with
        counter := st.counter + 1
        constructions := st.constructions + 1 }, .ok (.vobj st.counter)) := by
  rw [getF_constructs fuel st c id r hr (by rw [if_pos hlt]; rfl)]
  unfold createInstance runStrategy applyCollection applyCaching
  simp [hctor, hdeps, hcoll, hlt, resolveSeq]

theorem c7aux2 (id : Nat) (r : Reg) (hlt : r.lifetime = .transient)
    (hctor : r.ctor = true) (hdeps : r.ctorDependencies = [])
    (hcoll : r.collectionDependencies = none) :
    ∀ (n fuel : Nat) (st st' : St) (c : List Nat) (vs : List Value),
      lookupA st.registrations id = some r →
      getNF fuel st c id n = some (st', .ok vs) →
      st'.caches = st.caches ∧ st'.constructions = st.constructions + n := by
  intro n
  induction n with
  | zero =>
    intro fuel st st' c vs hr h
    unfold getNF at h
    injection h with h'
    injection h' with ha hb
    subst ha
    exact ⟨rfl, rfl⟩
  | succ n ih =>
    intro fuel st st' c vs hr h
    unfold getNF at h
    cases hg : getF fuel st c id with
    | none => rw [hg] at h; cases h
    | some p =>
      obtain ⟨stm, e⟩ := p
      rw [hg] at h
      cases e with
      | error e0 => simp at h
      | ok v =>
        simp only at h
        cases hgn : getNF fuel stm c id n with
        | none => rw [hgn] at h; cases h
        | some q =>
          obtain ⟨stq, e2⟩ := q
          rw [hgn] at h
          cases e2 with
          | error e0 => simp at h
          | ok vs0 =>
            injection h with h'
            injection h' with ha hb
            subst ha
            obtain ⟨g, rfl⟩ : ∃ g, fuel = g + 1 := by
              cases fuel with
              | zero => simp [getF] at hg
              | succ g => exact ⟨g, rfl⟩
            rw [getF_transient_ctor_nodeps g st c id r hr hlt hctor hdeps hcoll]
              at hg
            injection hg with hg'
            injection hg' with hgs hgv
            subst hgs
            have hrm : lookupA
                ({ st with
                  counter := st.counter + 1
                  constructions := st.constructions + 1 } : St).registrations
                id = some r := hr
            obtain ⟨hc2, hn2⟩ := ih (g + 1) _ stq c vs0 hrm hgn
            refine ⟨hc2, ?_⟩
            rw [hn2]
            show st.constructions + 1 + n = st.constructions + (n + 1)
            omega

/-- C7 (amended): for an identifier registered `transient` and
class-based, `n` calls to `get(id)` on one scope node yield `n`
pairwise-distinct instances, never touch any node's cache entry for
`id`, and each call runs construction (at least one strategy run per
call; for a dependency-free registration the caches are untouched
entirely and exactly `n` constructions run).  A transient factory
returning a shared fixed object yields equal, not distinct, instances,
hence the class-based restriction. -/
theorem c7_transient_freshness (fuel n : Nat) (st st' : St)
    (c : List Nat) (id : Nat) (r : Reg) (vs : List Value)
    (hr : lookupA st.registrations id = some r)
    (hlt : r.lifetime = .transient) (hctor : r.ctor = true)
    (h : getNF fuel st c id n = some (st', .ok vs)) :
    vs.length = n ∧ vs.Pairwise (· ≠ ·) ∧
    (∀ nd, cacheLookup st' nd id = cacheLookup st nd id) ∧
    st.constructions + n ≤ st'.constructions ∧
    (r.ctorDependencies = [] → r.collectionDependencies = none →
      st'.caches = st.caches ∧
      st'.constructions = st.constructions + n) := by
  obtain ⟨hlen, -, hpw, hcache, hcon, -, -⟩ :=
    c7aux id r hlt hctor n fuel st st' c vs hr h
  refine ⟨hlen, hpw, hcache, hcon, ?_⟩
  intro hdeps hcoll
  exact c7aux2 id r hlt hctor hdeps hcoll n fuel st st' c vs hr h

/-- C7 counterexample: with `9` registered transient through a factory
returning the shared object `vobj 77`, two `get(9)` calls on the root
both return `vobj 77`: the same object twice, falsifying "n
pairwise-distinct instances" as stated for every transient
registration. -/
theorem c7_counterexample :
    getNF 1 c7St0 rootChain 9 2 =
      some ({ c7St0 with constructions := c7St0.constructions + 2 },
        .ok [.vobj 77, .vobj 77]) ∧
    ¬ [Value.vobj 77, Value.vobj 77].Pairwise (· ≠ ·) :=
  ⟨rfl, by simp⟩

/-- C7 witness: three root `get(8)` calls on the class-based transient
`8` yield the three pairwise-distinct objects `vobj 0`, `vobj 1`,
`vobj 2`, leave the caches untouched, and run exactly three
constructions. -/
theorem c7_witness :
    [Value.vobj 0, Value.vobj 1, Value.vobj 2].length = 3 ∧
    [Value.vobj 0, Value.vobj 1, Value.vobj 2].Pairwise (· ≠ ·) ∧
    c7WStF.caches = c7WSt0.caches ∧
    c7WStF.constructions = c7WSt0.constructions + 3 :=
  have h := c7_transient_freshness 1 3 c7WSt0 c7WStF rootChain 8
    (classRegL .transient) [.vobj 0, .vobj 1, .vobj 2] rfl rfl rfl rfl
  ⟨h.1, h.2.1, (h.2.2.2.2 rfl rfl).1, (h.2.2.2.2 rfl rfl).2⟩

end InjectKit
